import Mathlib

/-!
# TLC5926 shift-register driver

A shallow embedding of `libraries/TLC5926/TLC5926.cpp` (with `TLC5926.h`).

The driver talks to the chip only through the pin primitives of the Arduino
core.  Every member function is embedded as a function from the device record
to an `Outcome`: the device record after the call (the handle the C++ code
returns as `this`) together with the list of primitive calls it made, in
program order.  Calls to `Serial.print`/`Serial.println` are recorded as
`Event.serial`, one event per call, without their text.

What the environment supplies is a parameter: `error_detect` takes the stream
`sdo` of levels returned by its successive `digitalRead(SDO)` calls, and
`attach` takes `on_timer`, the board's answer to
`digitalPinToTimer(pin) != NOT_ON_TIMER`.

Integer conventions: `int` pin numbers, table entries and levels are `Int`;
`unsigned int` words are `Nat`, reduced modulo `2 ^ 16` where the source
computes on them (the AVR targets of the Arduino core have 16-bit `int`);
a `uint8_t` parameter receives its argument modulo `256`; `char` is the
signed 8-bit type of avr-gcc.
-/

set_option linter.dupNamespace false

namespace TLC5926

/-! ## Arduino constants and the primitive calls -/

/-- Arduino level `LOW`. -/
def LOW : Int := 0

/-- Arduino level `HIGH`. -/
def HIGH : Int := 1

/-- Pin directions accepted by `pinMode`. -/
inductive PinMode
  | INPUT
  | OUTPUT
  deriving DecidableEq, Repr

/-- Bit orders accepted by `shiftOut`. -/
inductive BitOrder
  | LSBFIRST
  | MSBFIRST
  deriving DecidableEq, Repr

/-- One call of a primitive of the Arduino core, with the arguments passed. -/
inductive Event
  | pinMode (pin : Int) (mode : PinMode)
  | digitalWrite (pin : Int) (val : Int)
  | digitalRead (pin : Int)
  | analogWrite (pin : Int) (val : Int)
  | delay (ms : Nat)
  | delayMicroseconds (us : Nat)
  | serial
  deriving DecidableEq, Repr

/-- The private fields of `class TLC5926`. -/
structure Device where
  SDI : Int
  CLK : Int
  LE : Int
  iOE : Int
  SDO : Int
  ct : Int
  debugging : Bool
  pwm : Bool
  deriving DecidableEq, Repr

/-- Result of a member function: the device afterwards and the primitive calls made. -/
structure Outcome where
  dev : Device
  trace : List Event
  deriving DecidableEq, Repr

/-- Sequencing of two calls on the same handle: the second runs on the device
left by the first, and the traces are concatenated. -/
def Outcome.andThen (o : Outcome) (f : Device → Outcome) : Outcome :=
  ⟨(f o.dev).dev, o.trace ++ (f o.dev).trace⟩

/-- A step that is skipped (a false `if` without `else`). -/
def skip (d : Device) : Outcome := ⟨d, []⟩

/-- A run of primitive calls that does not touch the device record. -/
def emit (es : List Event) (d : Device) : Outcome := ⟨d, es⟩

/-- A block of statements on the same handle, run in order. -/
def run (steps : List (Device → Outcome)) (d : Device) : Outcome :=
  steps.foldl Outcome.andThen (skip d)

/-- Level put on the data pin for bit `i` of `val`: `!!(val & (1 << i))`. -/
def bitLevel (val i : Nat) : Int := if val.testBit i then 1 else 0

/-- Modelled from the spec: the Arduino core routine `shiftOut(dataPin, clockPin,
bitOrder, val)` is not part of this repository.  It serialises the 8-bit value
`val` (a `uint8_t`, so the argument is taken modulo 256) onto the data pin in
the given bit order, with one clock pulse (high, then low) after each bit. -/
def shiftOut (dataPin clockPin : Int) (bitOrder : BitOrder) (val : Nat) : List Event :=
  (List.range 8).flatMap fun i =>
    [ Event.digitalWrite dataPin
        (if bitOrder = BitOrder.LSBFIRST then bitLevel (val % 256) i
         else bitLevel (val % 256) (7 - i)),
      Event.digitalWrite clockPin HIGH,
      Event.digitalWrite clockPin LOW ]

/-! ## The driver -/

/-- Constructor `TLC5926::TLC5926()`. -/
def TLC5926 : Device :=
  { SDI := -1, CLK := -1, LE := -1, iOE := -1, SDO := -1, ct := 0,
    pwm := false, debugging := false }

/-- The three `Serial.print` calls of `TLC5926::debug_prefix`. -/
def debug_prefix (d : Device) : Outcome :=
  ⟨d, [Event.serial, Event.serial, Event.serial]⟩

/-- Source `TLC5926::debug_print`: the prefix, then `Serial.println(msg)`. -/
def debug_print (d : Device) : Outcome :=
  ( debug_prefix d).andThen (emit [Event.serial])

/-- The guarded call `if (debugging) debug_print(...)`. -/
def debug_warn (d : Device) : Outcome :=
  if d.debugging then debug_print d else skip d

/-- Source `TLC5926::debug`. -/
def debug (d : Device) (v : Bool) : Outcome :=
  ⟨{ d with debugging := v }, []⟩

/-- Source `TLC5926::latch_pulse`. -/
def latch_pulse (d : Device) : Outcome :=
  if d.LE ≠ -1 then
    emit [Event.digitalWrite d.LE HIGH, Event.digitalWrite d.LE LOW] d
  else
    debug_warn d

/-- Source `TLC5926::shift`: upper byte `pattern >> 8`, then `lowByte(pattern)`,
both most significant bit first. -/
def shift (d : Device) (pattern : Nat) : Outcome :=
  emit (shiftOut d.SDI d.CLK BitOrder.MSBFIRST (pattern >>> 8)
        ++ shiftOut d.SDI d.CLK BitOrder.MSBFIRST (pattern &&& 0xff)) d

/-- Source `TLC5926::send`. -/
def send (d : Device) (pattern : Nat) : Outcome :=
  (shift d pattern).andThen fun d1 =>
    if d1.LE ≠ -1 then latch_pulse d1 else skip d1

/-- Source `TLC5926::on`. -/
def «on» (d : Device) : Outcome :=
  if d.iOE ≠ -1 then
    run [ debug_warn,
          fun d1 => if d1.pwm then emit [Event.pinMode d1.iOE PinMode.OUTPUT] d1 else skip d1,
          fun d1 => emit [Event.digitalWrite d1.iOE LOW] d1 ] d
  else
    debug_warn d

/-- Source `TLC5926::off`. -/
def off (d : Device) : Outcome :=
  if d.iOE ≠ -1 then
    run [ debug_warn,
          fun d1 => if d1.pwm then emit [Event.pinMode d1.iOE PinMode.OUTPUT] d1 else skip d1,
          fun d1 => emit [Event.digitalWrite d1.iOE HIGH] d1 ] d
  else
    debug_warn d

/-- Source `TLC5926::all`: `ct` calls of `shift` with the fill word, then the
latch pulse when `LE` is wired.  `shift` leaves `ct` alone, so the loop bound is
the `ct` of entry; a negative `ct` gives no iteration. -/
def all (d : Device) (hilo : Int) : Outcome :=
  run (List.replicate d.ct.toNat (fun d1 => shift d1 (if hilo ≠ 0 then 0xFFFF else 0))
        ++ [fun d1 => if d1.LE ≠ -1 then latch_pulse d1 else skip d1]) d

/-! ### Waveform tables

Rows are `{CLK, iOE, LE}`; a row whose first entry is `-1` ends the table. -/

/-- Table `NORMAL_MODE_PATTERN[5][3]`. -/
def NORMAL_MODE_PATTERN : List (Int × Int × Int) :=
  [ (LOW, HIGH, LOW), (HIGH, HIGH, LOW),
    (LOW, HIGH, LOW), (HIGH, HIGH, LOW),
    (-1, -1, -1) ]

/-- Table `SWITCH_MODE_PATTERN[10][3]`; the three rows without initialiser are zero. -/
def SWITCH_MODE_PATTERN : List (Int × Int × Int) :=
  [ (LOW, HIGH, LOW), (HIGH, HIGH, LOW),
    (LOW, LOW, LOW), (HIGH, LOW, LOW),
    (LOW, HIGH, LOW), (HIGH, HIGH, LOW),
    (-1, -1, -1),
    (0, 0, 0), (0, 0, 0), (0, 0, 0) ]

/-- Table `ERROR_DETECT_MODE_PATTERN[9][3]`. -/
def ERROR_DETECT_MODE_PATTERN : List (Int × Int × Int) :=
  [ (LOW, HIGH, HIGH), (HIGH, HIGH, HIGH),
    (LOW, HIGH, LOW), (HIGH, HIGH, LOW),
    (LOW, LOW, LOW), (HIGH, LOW, LOW),
    (LOW, LOW, LOW), (HIGH, LOW, LOW),
    (-1, -1, -1) ]

/-- Table `ERROR_DETECT_READY[4][3]`. -/
def ERROR_DETECT_READY : List (Int × Int × Int) :=
  [ (LOW, LOW, LOW), (HIGH, LOW, LOW),
    (LOW, HIGH, LOW),
    (-1, -1, -1) ]

/-- Table `CONFIGURATION_MODE_PATTERN[5][3]`. -/
def CONFIGURATION_MODE_PATTERN : List (Int × Int × Int) :=
  [ (LOW, HIGH, HIGH), (HIGH, HIGH, HIGH),
    (LOW, HIGH, LOW), (HIGH, HIGH, LOW),
    (-1, -1, -1) ]

/-- The `for` loop of `do_clk_ioe_le`: rows are played until one starts with `-1`
(running off the end of the array does not occur for the five tables). -/
def play_rows (d : Device) : List (Int × Int × Int) → List Event
  | [] => []
  | pins :: rest =>
    if pins.1 ≠ -1 then
      [ Event.digitalWrite d.CLK pins.1,
        Event.digitalWrite d.iOE pins.2.1,
        Event.digitalWrite d.LE pins.2.2 ] ++ play_rows d rest
    else []

/-- Source `TLC5926::do_clk_ioe_le`. -/
def do_clk_ioe_le (d : Device) (state_list : List (Int × Int × Int)) : Outcome :=
  emit (play_rows d state_list ++ [Event.digitalWrite d.CLK LOW]) d

/-- Source `TLC5926::switch_mode`. -/
def switch_mode (d : Device) (pattern : List (Int × Int × Int)) : Outcome :=
  run [ debug_warn,
        fun d1 => if d1.pwm then emit [Event.pinMode d1.iOE PinMode.OUTPUT] d1 else skip d1,
        fun d1 => do_clk_ioe_le d1 SWITCH_MODE_PATTERN,
        debug_warn,
        fun d1 => do_clk_ioe_le d1 pattern ] d

/-- Source `TLC5926::normal_mode`. -/
def normal_mode (d : Device) : Outcome :=
  if d.LE = -1 ∨ d.iOE = -1 then debug_warn d
  else switch_mode d NORMAL_MODE_PATTERN

/-- Register byte packed by `config` (the local `value`): gain masked with
`0x003F`, `0x80` for a nonzero `hi_lo_current`, `0x40` for a nonzero
`hi_lo_voltage_band`. -/
def config_value (hi_lo_current hi_lo_voltage_band voltage_gain : Int) : Nat :=
  let value := (Int.land voltage_gain 0x003F).toNat
  let value := if hi_lo_current ≠ 0 then value ||| 0x80 else value
  let value := if hi_lo_voltage_band ≠ 0 then value ||| 0x40 else value
  value

/-- Source `TLC5926::config`. -/
def config (d : Device) (hi_lo_current hi_lo_voltage_band voltage_gain : Int) : Outcome :=
  if d.LE = -1 ∨ d.iOE = -1 then debug_warn d
  else
    run [ fun d1 => send d1 0xFFFF,
          fun d1 => switch_mode d1 CONFIGURATION_MODE_PATTERN,
          fun d1 => emit (shiftOut d1.SDI d1.CLK BitOrder.MSBFIRST 0) d1,
          fun d1 => emit (shiftOut d1.SDI d1.CLK BitOrder.LSBFIRST
                      (config_value hi_lo_current hi_lo_voltage_band voltage_gain)) d1,
          latch_pulse,
          normal_mode ] d

/-- Source `TLC5926::read_sdo`; `sample` is the level `digitalRead(SDO)` returns. -/
def read_sdo (d : Device) (sample : Nat) : Nat × Outcome :=
  if d.SDO = -1 then (0, debug_warn d)
  else (sample % 2 ^ 16,
        emit [Event.pinMode d.SDO PinMode.INPUT, Event.digitalRead d.SDO] d)

/-- One iteration of the read-back loop of `error_detect`, for loop index `i`:
`r = digitalRead(SDO)`, `status = (status << 1) | r` on a 16-bit `unsigned int`,
the five `Serial` calls, and the clock pulse.  `sdo i` is the level returned by
the `digitalRead` of iteration `i`. -/
def readback_step (d : Device) (sdo : Nat → Nat) (acc : Nat × List Event) (i : Nat) :
    Nat × List Event :=
  let r := sdo i
  let status := ((acc.1 <<< 1) ||| r) % 2 ^ 16
  (status,
   acc.2 ++ [ Event.digitalRead d.SDO, Event.serial,
              Event.serial, Event.serial, Event.serial, Event.serial,
              Event.digitalWrite d.CLK HIGH, Event.digitalWrite d.CLK LOW ])

/-- The loop `for(int i=0; i<16; i++)` of `error_detect`, entered with `status = 0`. -/
def readback (d : Device) (sdo : Nat → Nat) : Nat × List Event :=
  (List.range 16).foldl (readback_step d sdo) (0, [])

/-- Source `TLC5926::error_detect`: the returned status and the outcome. -/
def error_detect (d : Device) (sdo : Nat → Nat) : Nat × Outcome :=
  if d.LE = -1 ∨ d.iOE = -1 ∨ d.SDO = -1 then (0, debug_warn d)
  else
    let before :=
      run [ fun d1 => send d1 0xFFFF,
            fun d1 => switch_mode d1 ERROR_DETECT_MODE_PATTERN,
            emit [Event.delayMicroseconds 3],
            debug_warn,
            fun d1 => do_clk_ioe_le d1 ERROR_DETECT_READY,
            debug_warn,
            fun d1 => emit [ Event.pinMode d1.SDO PinMode.INPUT,
                             Event.digitalWrite d1.SDI LOW ] d1 ] d
    let loop := readback before.dev sdo
    let after :=
      run [ emit (loop.2 ++ [Event.serial]),
            fun d1 => if d1.debugging then
                        ( debug_prefix d1).andThen (emit [Event.serial, Event.serial])
                      else skip d1,
            fun d1 => emit [Event.pinMode d1.SDO PinMode.OUTPUT] d1,
            normal_mode ] before.dev
    (loop.1, ⟨after.dev, before.trace ++ after.trace⟩)

/-- Source `TLC5926::reset`. -/
def reset (d : Device) : Outcome :=
  run [ fun d1 => if d1.pwm then emit [Event.pinMode d1.iOE PinMode.OUTPUT] d1 else skip d1,
        fun d1 => if d1.iOE ≠ -1 ∧ d1.LE ≠ -1 then normal_mode d1 else skip d1,
        fun d1 => if d1.iOE ≠ -1 then off d1 else skip d1,
        fun d1 => if d1.SDO ≠ -1 then emit [Event.pinMode d1.SDO PinMode.INPUT] d1 else skip d1,
        fun d1 => all d1 LOW,
        fun d1 => if d1.iOE ≠ -1 ∧ d1.LE ≠ -1 then config d1 1 1 127 else skip d1,
        fun d1 => if d1.iOE ≠ -1 then «on» d1 else skip d1 ] d

/-- Source `TLC5926::attach` (six arguments).  `on_timer p` stands for
`digitalPinToTimer(p) != NOT_ON_TIMER`, a macro of the board's `pins_arduino.h`. -/
def attach (on_timer : Int → Bool) (d : Device)
    (chained_ct sdi_pin clk_pin le_pin ioe_pin sdo_pin : Int) : Outcome :=
  if d.ct ≠ 0 then debug_warn d
  else
    run [ fun d1 => emit [ Event.pinMode d1.CLK PinMode.OUTPUT,
                           Event.digitalWrite d1.CLK LOW,
                           Event.pinMode d1.SDI PinMode.OUTPUT ] d1,
          fun d1 => if d1.debugging then
                      ( debug_prefix d1).andThen
                        (emit [ Event.serial, Event.serial, Event.serial,
                                Event.serial, Event.serial, Event.serial ])
                    else skip d1,
          fun d1 => if d1.LE > -1 then
                      run [ fun d2 => if d2.debugging then emit [Event.serial, Event.serial] d2
                                      else skip d2,
                            fun d2 => emit [ Event.pinMode d2.LE PinMode.OUTPUT,
                                             Event.digitalWrite d2.LE LOW ] d2 ] d1
                    else skip d1,
          fun d1 => if d1.iOE > -1 then
                      run [ fun d2 => if d2.debugging then emit [Event.serial, Event.serial] d2
                                      else skip d2,
                            fun d2 => if on_timer d2.iOE then ⟨{ d2 with pwm := true }, []⟩
                                      else skip d2,
                            «on» ] d1
                    else skip d1,
          fun d1 => if d1.SDO > -1 then
                      run [ fun d2 => if d2.debugging then emit [Event.serial, Event.serial] d2
                                      else skip d2,
                            fun d2 => emit [Event.pinMode d2.SDO PinMode.INPUT] d2 ] d1
                    else skip d1,
          fun d1 => if d1.debugging then emit [Event.serial] d1 else skip d1 ]
      { d with ct := chained_ct, SDI := sdi_pin, CLK := clk_pin, LE := le_pin,
               iOE := ioe_pin, SDO := sdo_pin }

/-- Overload `attach(sdi_pin, clk_pin)`. -/
def attach_sdi_clk (on_timer : Int → Bool) (d : Device) (sdi_pin clk_pin : Int) : Outcome :=
  attach on_timer d 1 sdi_pin clk_pin (-1) (-1) (-1)

/-- Overload `attach(chained_ct, sdi_pin, clk_pin)`. -/
def attach_ct_sdi_clk (on_timer : Int → Bool) (d : Device)
    (chained_ct sdi_pin clk_pin : Int) : Outcome :=
  attach on_timer d chained_ct sdi_pin clk_pin (-1) (-1) (-1)

/-- Overload `attach(sdi_pin, clk_pin, le_pin, ioe_pin)`. -/
def attach_sdi_clk_le_ioe (on_timer : Int → Bool) (d : Device)
    (sdi_pin clk_pin le_pin ioe_pin : Int) : Outcome :=
  attach on_timer d 1 sdi_pin clk_pin le_pin ioe_pin (-1)

/-- Conversion of an `int` argument to the 16-bit `short int` parameter. -/
def to_short (x : Int) : Int := (x + 32768) % 65536 - 32768

/-- Source `TLC5926::send_bits`.  The loop runs with `ct - 1` going from the
entry value minus one down to `0`; `bitRead(bits, k)` is bit `k` of `bits`;
the `int` passed to `::delay(unsigned long)` is taken modulo `2 ^ 32`. -/
def send_bits (d : Device) (ct bits delay_between : Int) : Outcome :=
  run ((List.range ct.toNat).reverse.map (fun k => fun d1 =>
          run [ fun d2 => emit [ Event.digitalWrite d2.SDI
                                   (if (to_short bits).testBit k then 1 else 0),
                                 Event.digitalWrite d2.CLK HIGH,
                                 Event.digitalWrite d2.CLK LOW ] d2,
                fun d2 => if delay_between ≠ 0 then
                            run [ fun d3 => if d3.LE ≠ -1 then latch_pulse d3 else skip d3,
                                  emit [Event.delay (delay_between % 2 ^ 32).toNat] ] d2
                          else skip d2 ] d1)
        ++ [fun d1 => if delay_between = 0 ∧ d1.LE ≠ -1 then latch_pulse d1 else skip d1]) d

/-- Conversion of an `int` argument to the signed 8-bit `char` parameter. -/
def to_char (x : Int) : Int := (x + 128) % 256 - 128

/-- Source `TLC5926::brightness`.  The argument is converted to `char`; the
operand of `~` is promoted to `int`, and that `int` is what `analogWrite` receives. -/
def brightness (d : Device) (level : Int) : Outcome :=
  if d.iOE = -1 then debug_warn d
  else if d.pwm = false then debug_warn d
  else emit [Event.analogWrite d.iOE (~~~ (to_char level))] d

/-- Source `TLC5926::delay`. -/
def delay (d : Device) (duration : Nat) : Outcome :=
  emit [Event.delay duration] d

/-- Source `TLC5926::delayMicroseconds`. -/
def delayMicroseconds (d : Device) (duration : Nat) : Outcome :=
  emit [Event.delayMicroseconds duration] d

/-- Source `TLC5926::flash`. -/
def flash (d : Device) (on_duration bracket : Nat) (leave_on : Bool) : Outcome :=
  run [ off,
        emit [Event.delay bracket],
        «on»,
        emit [Event.delay on_duration],
        off,
        emit [Event.delay bracket],
        fun d1 => if leave_on then «on» d1 else skip d1 ] d

/-! ## Observations on traces -/

/-- Values written with `digitalWrite` to pin `p`, in order. -/
def writes_to (p : Int) (t : List Event) : List Int :=
  t.filterMap fun e =>
    match e with
    | Event.digitalWrite q v => if q = p then some v else none
    | _ => none

/-- The `digitalWrite` calls of a trace as (pin, value) pairs, in order. -/
def writes (t : List Event) : List (Int × Int) :=
  t.filterMap fun e =>
    match e with
    | Event.digitalWrite q v => some (q, v)
    | _ => none

/-- The calls of a trace that act on a pin or wait: everything except `Serial` output. -/
def pin_events (t : List Event) : List Event :=
  t.filter fun e => decide (e ≠ Event.serial)

/-- Level last written to pin `p` in a trace, if any. -/
def last_write (p : Int) (t : List Event) : Option Int :=
  (writes_to p t).getLast?

/-- Level of pin `p` after a trace, for a pin that was at level `prior` before:
the last level written, or `prior` when the trace does not write the pin. -/
def level_after (prior : Int) (p : Int) (t : List Event) : Int :=
  (last_write p t).getD prior

/-- Writes of the rows of a waveform given as explicit frames, without terminator. -/
def frame_writes (d : Device) (frames : List (Int × Int × Int)) : List (Int × Int) :=
  frames.flatMap fun f => [(d.CLK, f.1), (d.iOE, f.2.1), (d.LE, f.2.2)]

/-- The rows of a table that are played: those before the terminating row. -/
def frames (table : List (Int × Int × Int)) : List (Int × Int × Int) :=
  table.takeWhile fun r => decide (r.1 ≠ -1)

/-- The six frames of the mode-switch transition, as {CLK, iOE, LE} levels. -/
def transition_frames : List (Int × Int × Int) :=
  [ (0, 1, 0), (1, 1, 0), (0, 0, 0), (1, 0, 0), (0, 1, 0), (1, 1, 0) ]

/-! ## Sample devices used to exercise the theorems -/

/-- A four-wire set-up (no data-out) on pins 2..5, `iOE` on a timer pin. -/
def four_wire : Device :=
  { SDI := 2, CLK := 3, LE := 4, iOE := 5, SDO := -1, ct := 1, debugging := false, pwm := true }

/-- A five-wire set-up with data-out on pin 6. -/
def five_wire : Device :=
  { SDI := 2, CLK := 3, LE := 4, iOE := 5, SDO := 6, ct := 1, debugging := false, pwm := true }

/-- Timer pins of an ATmega328 board (3, 5, 6, 9, 10, 11). -/
def uno_timer (p : Int) : Bool := decide (p ∈ [3, 5, 6, 9, 10, 11])

/-- A three-wire set-up with iOE but neither LE nor data-out. -/
def oe_only : Device :=
  { SDI := 2, CLK := 3, LE := -1, iOE := 5, SDO := -1, ct := 2, debugging := true, pwm := false }

/-- A data-out stream that alternates 1, 0, 1, 0, ... -/
def alternating (i : Nat) : Nat := if i % 2 = 0 then 1 else 0

/-! ## Sequencing lemmas -/

@[simp] theorem skip_dev (d : Device) : (skip d).dev = d := rfl

@[simp] theorem skip_trace (d : Device) : (skip d).trace = [] := rfl

@[simp] theorem emit_dev (es : List Event) (d : Device) : (emit es d).dev = d := rfl

@[simp] theorem emit_trace (es : List Event) (d : Device) : (emit es d).trace = es := rfl

@[simp] theorem andThen_dev (o : Outcome) (f : Device → Outcome) :
    (o.andThen f).dev = (f o.dev).dev := rfl

@[simp] theorem andThen_trace (o : Outcome) (f : Device → Outcome) :
    (o.andThen f).trace = o.trace ++ (f o.dev).trace := rfl

theorem foldl_andThen (steps : List (Device → Outcome)) (o : Outcome) :
    (steps.foldl Outcome.andThen o).dev = (run steps o.dev).dev
    ∧ (steps.foldl Outcome.andThen o).trace = o.trace ++ (run steps o.dev).trace := by
  induction steps generalizing o with
  | nil => simp [run]
  | cons f fs ih =>
    have h1 := ih (o.andThen f)
    have h2 := ih ((skip o.dev).andThen f)
    simp only [run, List.foldl_cons] at h1 h2 ⊢
    simp only [andThen_dev, andThen_trace, skip_dev, skip_trace, List.nil_append] at h1 h2
    rw [h1.1, h1.2, h2.1, h2.2]
    simp [run]

@[simp] theorem run_nil (d : Device) : run [] d = skip d := rfl

theorem run_cons_dev (f : Device → Outcome) (fs : List (Device → Outcome)) (d : Device) :
    (run (f :: fs) d).dev = (run fs (f d).dev).dev := by
  have h := (foldl_andThen fs ((skip d).andThen f)).1
  simpa [run] using h

theorem run_cons_trace (f : Device → Outcome) (fs : List (Device → Outcome)) (d : Device) :
    (run (f :: fs) d).trace = (f d).trace ++ (run fs (f d).dev).trace := by
  have h := (foldl_andThen fs ((skip d).andThen f)).2
  simpa [run] using h

/-- A block whose steps all leave the device record alone leaves it alone, and
its trace is the concatenation of the traces of the steps run on that device. -/
theorem run_of_keep (steps : List (Device → Outcome)) (d : Device)
    (h : ∀ f ∈ steps, ∀ x, (f x).dev = x) :
    (run steps d).dev = d ∧ (run steps d).trace = steps.flatMap (fun f => (f d).trace) := by
  induction steps with
  | nil => simp
  | cons f fs ih =>
    have hf : (f d).dev = d := h f (List.mem_cons_self _ _) d
    have ih2 := ih (fun g hg => h g (List.mem_cons_of_mem _ hg))
    rw [run_cons_dev, run_cons_trace, hf]
    simp [ih2.1, ih2.2]

/-! ## The device record is only changed by `attach` and `debug` -/

@[simp] theorem debug_warn_dev (d : Device) : (debug_warn d).dev = d := by
  unfold debug_warn debug_print debug_prefix
  split <;> rfl

theorem debug_warn_trace (d : Device) :
    (debug_warn d).trace =
      if d.debugging then [Event.serial, Event.serial, Event.serial, Event.serial] else [] := by
  unfold debug_warn debug_print debug_prefix
  split <;> rfl

@[simp] theorem latch_pulse_dev (d : Device) : (latch_pulse d).dev = d := by
  unfold latch_pulse
  split <;> simp

@[simp] theorem shift_dev (d : Device) (w : Nat) : (shift d w).dev = d := rfl

@[simp] theorem send_dev (d : Device) (w : Nat) : (send d w).dev = d := by
  unfold send
  simp only [andThen_dev, shift_dev]
  split <;> simp

@[simp] theorem on_dev (d : Device) : («on» d).dev = d := by
  unfold «on»
  split
  · refine (run_of_keep _ d ?_).1
    intro f hf x
    simp only [List.mem_cons, List.mem_singleton, List.not_mem_nil, or_false] at hf
    rcases hf with rfl | rfl | rfl
    · simp
    · beta_reduce; split <;> simp
    · simp
  · simp

@[simp] theorem off_dev (d : Device) : (off d).dev = d := by
  unfold off
  split
  · refine (run_of_keep _ d ?_).1
    intro f hf x
    simp only [List.mem_cons, List.mem_singleton, List.not_mem_nil, or_false] at hf
    rcases hf with rfl | rfl | rfl
    · simp
    · beta_reduce; split <;> simp
    · simp
  · simp

@[simp] theorem do_clk_ioe_le_dev (d : Device) (t : List (Int × Int × Int)) :
    (do_clk_ioe_le d t).dev = d := rfl

@[simp] theorem switch_mode_dev (d : Device) (t : List (Int × Int × Int)) :
    (switch_mode d t).dev = d := by
  unfold switch_mode
  refine (run_of_keep _ d ?_).1
  intro f hf x
  simp only [List.mem_cons, List.mem_singleton, List.not_mem_nil, or_false] at hf
  rcases hf with rfl | rfl | rfl | rfl | rfl
  · simp
  · beta_reduce; split <;> simp
  · simp
  · simp
  · simp

@[simp] theorem normal_mode_dev (d : Device) : (normal_mode d).dev = d := by
  unfold normal_mode
  split <;> simp

@[simp] theorem config_dev (d : Device) (c b g : Int) : (config d c b g).dev = d := by
  unfold config
  split
  · simp
  · refine (run_of_keep _ d ?_).1
    intro f hf x
    simp only [List.mem_cons, List.mem_singleton, List.not_mem_nil, or_false] at hf
    rcases hf with rfl | rfl | rfl | rfl | rfl | rfl <;> simp

@[simp] theorem all_dev (d : Device) (hilo : Int) : (all d hilo).dev = d := by
  unfold all
  refine (run_of_keep _ d ?_).1
  intro f hf x
  simp only [List.mem_append, List.mem_replicate, List.mem_singleton] at hf
  rcases hf with ⟨_, rfl⟩ | rfl
  · simp
  · beta_reduce; split <;> simp

@[simp] theorem reset_dev (d : Device) : (reset d).dev = d := by
  unfold reset
  refine (run_of_keep _ d ?_).1
  intro f hf x
  simp only [List.mem_cons, List.mem_singleton, List.not_mem_nil, or_false] at hf
  rcases hf with rfl | rfl | rfl | rfl | rfl | rfl | rfl
  · beta_reduce; split <;> simp
  · beta_reduce; split <;> simp
  · beta_reduce; split <;> simp
  · beta_reduce; split <;> simp
  · simp
  · beta_reduce; split <;> simp
  · beta_reduce; split <;> simp

/-! ## Shift protocol -/

theorem range8 : List.range 8 = [0, 1, 2, 3, 4, 5, 6, 7] := by decide

theorem range16 :
    List.range 16 = [0, 1, 2, 3, 4, 5, 6, 7, 8, 9, 10, 11, 12, 13, 14, 15] := by decide

theorem testBit_upper_byte (W i : Nat) (h : i < 8) :
    ((W >>> 8) % 256).testBit i = W.testBit (8 + i) := by
  have h256 : (256 : Nat) = 2 ^ 8 := by norm_num
  rw [h256, Nat.testBit_mod_two_pow, Nat.testBit_shiftRight]
  simp [h]

theorem testBit_lower_byte (W i : Nat) (h : i < 8) :
    ((W &&& 0xff) % 256).testBit i = W.testBit i := by
  have h256 : (256 : Nat) = 2 ^ 8 := by norm_num
  have h255 : (0xff : Nat) = 2 ^ 8 - 1 := by norm_num
  rw [h255, Nat.and_pow_two_sub_one_eq_mod, h256, Nat.mod_mod, Nat.testBit_mod_two_pow]
  simp [h]

/-- The trace of `shift`: sixteen data-bit/clock-pulse triples, bit 15 first. -/
theorem shift_trace (d : Device) (W : Nat) :
    (shift d W).trace =
      (List.range 16).flatMap (fun i =>
        [ Event.digitalWrite d.SDI (if W.testBit (15 - i) then 1 else 0),
          Event.digitalWrite d.CLK HIGH,
          Event.digitalWrite d.CLK LOW ]) := by
  simp only [shift, emit, shiftOut, range8, range16, List.flatMap_cons, List.flatMap_nil,
    bitLevel]
  simp (disch := decide) only [testBit_upper_byte, testBit_lower_byte, Nat.reduceSub,
    Nat.reduceAdd, List.nil_append, List.cons_append, List.append_nil]
  simp

/-- C1. For every word `W`, the calls made by `shift(W)` are exactly sixteen
groups "write the data bit to SDI, write CLK high, write CLK low", the data bits
being bit 15 of `W` first down to bit 0 last; the device record is unchanged;
and whenever LE (resp. iOE) is a pin other than SDI and CLK, nothing is written
to it.  `W` ranges over all naturals, so in particular over the 16-bit words. -/
theorem shift_msb_first (d : Device) (W : Nat) :
    (shift d W).trace =
      (List.range 16).flatMap (fun i =>
        [ Event.digitalWrite d.SDI (if W.testBit (15 - i) then 1 else 0),
          Event.digitalWrite d.CLK HIGH,
          Event.digitalWrite d.CLK LOW ])
    ∧ (shift d W).dev = d
    ∧ (d.LE ≠ d.SDI → d.LE ≠ d.CLK → writes_to d.LE (shift d W).trace = [])
    ∧ (d.iOE ≠ d.SDI → d.iOE ≠ d.CLK → writes_to d.iOE (shift d W).trace = []) := by
  refine ⟨shift_trace d W, rfl, ?_, ?_⟩
  · intro h1 h2
    rw [shift_trace]
    simp [range16, writes_to, List.flatMap_cons, List.filterMap_cons, Ne.symm h1, Ne.symm h2]
  · intro h1 h2
    rw [shift_trace]
    simp [range16, writes_to, List.flatMap_cons, List.filterMap_cons, Ne.symm h1, Ne.symm h2]

/-- Witness for C1 on the four-wire device with the word `0xAAAA`: nothing is
written to LE (pin 4) or iOE (pin 5), and the sixteen clock pulses are there. -/
theorem shift_msb_first_witness :
    writes_to four_wire.LE (shift four_wire 0xAAAA).trace = []
    ∧ writes_to four_wire.iOE (shift four_wire 0xAAAA).trace = []
    ∧ writes_to four_wire.SDI (shift four_wire 0xAAAA).trace
        = [1, 0, 1, 0, 1, 0, 1, 0, 1, 0, 1, 0, 1, 0, 1, 0]
    ∧ writes_to four_wire.CLK (shift four_wire 0xAAAA).trace
        = [1, 0, 1, 0, 1, 0, 1, 0, 1, 0, 1, 0, 1, 0, 1, 0,
           1, 0, 1, 0, 1, 0, 1, 0, 1, 0, 1, 0, 1, 0, 1, 0] :=
  ⟨(shift_msb_first four_wire 0xAAAA).2.2.1 (by decide) (by decide),
   (shift_msb_first four_wire 0xAAAA).2.2.2 (by decide) (by decide),
   by decide, by decide⟩

/-! ## Traces of the member functions -/

theorem keep_of_mem_cons {f : Device → Outcome} {fs : List (Device → Outcome)}
    (hf : ∀ x, (f x).dev = x) (hfs : ∀ g ∈ fs, ∀ x, (g x).dev = x) :
    ∀ g ∈ f :: fs, ∀ x, (g x).dev = x := by
  intro g hg x
  rcases List.mem_cons.1 hg with rfl | h
  · exact hf x
  · exact hfs g h x

theorem keep_nil : ∀ g ∈ ([] : List (Device → Outcome)), ∀ x, (g x).dev = x := by
  intro g hg
  cases hg

theorem keep_pwm_step (x : Device) :
    ((fun d1 : Device =>
        if d1.pwm then emit [Event.pinMode d1.iOE PinMode.OUTPUT] d1 else skip d1) x).dev = x := by
  beta_reduce
  split <;> simp

theorem on_trace (d : Device) (h : d.iOE ≠ -1) :
    («on» d).trace =
      (debug_warn d).trace
        ++ (if d.pwm then [Event.pinMode d.iOE PinMode.OUTPUT] else [])
        ++ [Event.digitalWrite d.iOE LOW] := by
  unfold «on»
  rw [if_pos h]
  rw [(run_of_keep _ d (keep_of_mem_cons (by simp) (keep_of_mem_cons keep_pwm_step
        (keep_of_mem_cons (by simp) keep_nil)))).2]
  by_cases hp : d.pwm = true <;> simp [hp]

theorem off_trace (d : Device) (h : d.iOE ≠ -1) :
    (off d).trace =
      (debug_warn d).trace
        ++ (if d.pwm then [Event.pinMode d.iOE PinMode.OUTPUT] else [])
        ++ [Event.digitalWrite d.iOE HIGH] := by
  unfold off
  rw [if_pos h]
  rw [(run_of_keep _ d (keep_of_mem_cons (by simp) (keep_of_mem_cons keep_pwm_step
        (keep_of_mem_cons (by simp) keep_nil)))).2]
  by_cases hp : d.pwm = true <;> simp [hp]

theorem switch_mode_trace (d : Device) (T : List (Int × Int × Int)) :
    (switch_mode d T).trace =
      (debug_warn d).trace
        ++ (if d.pwm then [Event.pinMode d.iOE PinMode.OUTPUT] else [])
        ++ (do_clk_ioe_le d SWITCH_MODE_PATTERN).trace
        ++ (debug_warn d).trace
        ++ (do_clk_ioe_le d T).trace := by
  unfold switch_mode
  rw [(run_of_keep _ d (keep_of_mem_cons (by simp) (keep_of_mem_cons keep_pwm_step
        (keep_of_mem_cons (by simp) (keep_of_mem_cons (by simp)
        (keep_of_mem_cons (by simp) keep_nil)))))).2]
  by_cases hp : d.pwm = true <;> simp [hp]

theorem normal_mode_trace (d : Device) (hLE : d.LE ≠ -1) (hOE : d.iOE ≠ -1) :
    (normal_mode d).trace = (switch_mode d NORMAL_MODE_PATTERN).trace := by
  unfold normal_mode
  rw [if_neg (by simp [hLE, hOE])]

theorem send_trace (d : Device) (W : Nat) :
    (send d W).trace =
      (shift d W).trace
        ++ (if d.LE ≠ -1 then [Event.digitalWrite d.LE HIGH, Event.digitalWrite d.LE LOW]
            else []) := by
  unfold send latch_pulse
  by_cases h : d.LE = -1 <;> simp [h]

theorem config_trace (d : Device) (c b g : Int) (hLE : d.LE ≠ -1) (hOE : d.iOE ≠ -1) :
    (config d c b g).trace =
      (send d 0xFFFF).trace
        ++ (switch_mode d CONFIGURATION_MODE_PATTERN).trace
        ++ shiftOut d.SDI d.CLK BitOrder.MSBFIRST 0
        ++ shiftOut d.SDI d.CLK BitOrder.LSBFIRST (config_value c b g)
        ++ (latch_pulse d).trace
        ++ (normal_mode d).trace := by
  unfold config
  rw [if_neg (by simp [hLE, hOE])]
  rw [(run_of_keep _ d (keep_of_mem_cons (by simp) (keep_of_mem_cons (by simp)
        (keep_of_mem_cons (by simp) (keep_of_mem_cons (by simp)
        (keep_of_mem_cons (by simp) (keep_of_mem_cons (by simp) keep_nil))))))).2]
  simp

/-- The part of `error_detect` before the read-back loop leaves the device alone. -/
theorem error_detect_before (d : Device) :
    (run [ fun d1 => send d1 0xFFFF,
           fun d1 => switch_mode d1 ERROR_DETECT_MODE_PATTERN,
           emit [Event.delayMicroseconds 3],
           debug_warn,
           fun d1 => do_clk_ioe_le d1 ERROR_DETECT_READY,
           debug_warn,
           fun d1 => emit [ Event.pinMode d1.SDO PinMode.INPUT,
                            Event.digitalWrite d1.SDI LOW ] d1 ] d).dev = d
    ∧ (run [ fun d1 => send d1 0xFFFF,
           fun d1 => switch_mode d1 ERROR_DETECT_MODE_PATTERN,
           emit [Event.delayMicroseconds 3],
           debug_warn,
           fun d1 => do_clk_ioe_le d1 ERROR_DETECT_READY,
           debug_warn,
           fun d1 => emit [ Event.pinMode d1.SDO PinMode.INPUT,
                            Event.digitalWrite d1.SDI LOW ] d1 ] d).trace =
      (send d 0xFFFF).trace
        ++ (switch_mode d ERROR_DETECT_MODE_PATTERN).trace
        ++ [Event.delayMicroseconds 3]
        ++ (debug_warn d).trace
        ++ (do_clk_ioe_le d ERROR_DETECT_READY).trace
        ++ (debug_warn d).trace
        ++ [Event.pinMode d.SDO PinMode.INPUT, Event.digitalWrite d.SDI LOW] := by
  have h := run_of_keep
    [ fun d1 => send d1 0xFFFF,
      fun d1 => switch_mode d1 ERROR_DETECT_MODE_PATTERN,
      emit [Event.delayMicroseconds 3],
      debug_warn,
      fun d1 => do_clk_ioe_le d1 ERROR_DETECT_READY,
      debug_warn,
      fun d1 => emit [ Event.pinMode d1.SDO PinMode.INPUT,
                       Event.digitalWrite d1.SDI LOW ] d1 ] d
    (keep_of_mem_cons (by simp) (keep_of_mem_cons (by simp)
      (keep_of_mem_cons (by simp) (keep_of_mem_cons (by simp)
      (keep_of_mem_cons (by simp) (keep_of_mem_cons (by simp)
      (keep_of_mem_cons (by simp) keep_nil)))))))
  refine ⟨h.1, ?_⟩
  rw [h.2]
  simp

theorem keep_debug_status (x : Device) :
    ((fun d1 : Device =>
        if d1.debugging then ( debug_prefix d1).andThen (emit [Event.serial, Event.serial])
        else skip d1) x).dev = x := by
  beta_reduce
  split
  · rfl
  · simp

/-- The trace of `error_detect` on a device with LE, iOE and SDO wired. -/
theorem error_detect_trace (d : Device) (sdo : Nat → Nat)
    (hLE : d.LE ≠ -1) (hOE : d.iOE ≠ -1) (hSDO : d.SDO ≠ -1) :
    (error_detect d sdo).1 = (readback d sdo).1
    ∧ (error_detect d sdo).2.dev = d
    ∧ (error_detect d sdo).2.trace =
      ((send d 0xFFFF).trace
        ++ (switch_mode d ERROR_DETECT_MODE_PATTERN).trace
        ++ [Event.delayMicroseconds 3]
        ++ (debug_warn d).trace
        ++ (do_clk_ioe_le d ERROR_DETECT_READY).trace
        ++ (debug_warn d).trace
        ++ [Event.pinMode d.SDO PinMode.INPUT, Event.digitalWrite d.SDI LOW])
      ++ (readback d sdo).2
      ++ ([Event.serial]
        ++ (if d.debugging then
              [Event.serial, Event.serial, Event.serial, Event.serial, Event.serial]
            else [])
        ++ [Event.pinMode d.SDO PinMode.OUTPUT]
        ++ (normal_mode d).trace) := by
  unfold error_detect
  rw [if_neg (by simp [hLE, hOE, hSDO])]
  have hb := error_detect_before d
  simp only [hb.1, hb.2]
  have ha := run_of_keep
    [ emit ((readback d sdo).2 ++ [Event.serial]),
      fun d1 => if d1.debugging then
                  ( debug_prefix d1).andThen (emit [Event.serial, Event.serial])
                else skip d1,
      fun d1 => emit [Event.pinMode d1.SDO PinMode.OUTPUT] d1,
      normal_mode ] d
    (keep_of_mem_cons (by simp) (keep_of_mem_cons keep_debug_status
      (keep_of_mem_cons (by simp) (keep_of_mem_cons (by simp) keep_nil))))
  refine ⟨trivial, ha.1, ?_⟩
  rw [ha.2]
  by_cases hdbg : d.debugging = true <;>
    simp [hdbg, debug_prefix, Outcome.andThen, emit, List.append_assoc]

/-! ## Mode switching -/

theorem writes_append (a b : List Event) : writes (a ++ b) = writes a ++ writes b := by
  simp [writes, List.filterMap_append]

theorem writes_to_append (p : Int) (a b : List Event) :
    writes_to p (a ++ b) = writes_to p a ++ writes_to p b := by
  simp [writes_to, List.filterMap_append]

theorem writes_debug_warn (d : Device) : writes (debug_warn d).trace = [] := by
  rw [debug_warn_trace]
  split <;> rfl

theorem writes_to_debug_warn (p : Int) (d : Device) : writes_to p (debug_warn d).trace = [] := by
  rw [debug_warn_trace]
  split <;> rfl

theorem writes_play_rows (d : Device) (T : List (Int × Int × Int)) :
    writes (play_rows d T) = frame_writes d (frames T) := by
  induction T with
  | nil => rfl
  | cons r rest ih =>
    by_cases h : r.1 = -1
    · simp [play_rows, frames, frame_writes, h, writes]
    · have h1 : play_rows d (r :: rest) =
          [ Event.digitalWrite d.CLK r.1, Event.digitalWrite d.iOE r.2.1,
            Event.digitalWrite d.LE r.2.2 ] ++ play_rows d rest := by
        simp [play_rows, h]
      have h2 : frames (r :: rest) = r :: frames rest := by
        simp [frames, List.takeWhile, h]
      have h3 : frame_writes d (r :: frames rest) =
          [(d.CLK, r.1), (d.iOE, r.2.1), (d.LE, r.2.2)] ++ frame_writes d (frames rest) := by
        simp [frame_writes]
      rw [h1, h2, h3, writes_append, ih]
      rfl

theorem writes_do_clk_ioe_le (d : Device) (T : List (Int × Int × Int)) :
    writes (do_clk_ioe_le d T).trace = frame_writes d (frames T) ++ [(d.CLK, LOW)] := by
  simp only [do_clk_ioe_le, emit_trace, writes_append, writes_play_rows]
  simp [writes]

theorem writes_switch_mode (d : Device) (T : List (Int × Int × Int)) :
    writes (switch_mode d T).trace =
      frame_writes d (frames SWITCH_MODE_PATTERN) ++ [(d.CLK, LOW)]
        ++ frame_writes d (frames T) ++ [(d.CLK, LOW)] := by
  rw [switch_mode_trace]
  simp only [writes_append, writes_debug_warn, writes_do_clk_ioe_le]
  by_cases hp : d.pwm = true <;> simp [hp, writes]

/-- C2. For each target table (Normal, Configuration, Error-Detect) the
`digitalWrite` calls made by `switch_mode` are, in order: the six transition
frames (each frame a write to CLK, to iOE and to LE), CLK low, the frames of the
target table, CLK low.  So no frame of the target is played before the last
transition frame.  The played frames of every table are listed explicitly. -/
theorem switch_mode_transition_first (d : Device) :
    frames SWITCH_MODE_PATTERN = transition_frames
    ∧ writes (switch_mode d NORMAL_MODE_PATTERN).trace =
        frame_writes d transition_frames ++ [(d.CLK, 0)]
          ++ frame_writes d [(0, 1, 0), (1, 1, 0), (0, 1, 0), (1, 1, 0)] ++ [(d.CLK, 0)]
    ∧ writes (switch_mode d CONFIGURATION_MODE_PATTERN).trace =
        frame_writes d transition_frames ++ [(d.CLK, 0)]
          ++ frame_writes d [(0, 1, 1), (1, 1, 1), (0, 1, 0), (1, 1, 0)] ++ [(d.CLK, 0)]
    ∧ writes (switch_mode d ERROR_DETECT_MODE_PATTERN).trace =
        frame_writes d transition_frames ++ [(d.CLK, 0)]
          ++ frame_writes d [ (0, 1, 1), (1, 1, 1), (0, 1, 0), (1, 1, 0),
                              (0, 0, 0), (1, 0, 0), (0, 0, 0), (1, 0, 0) ] ++ [(d.CLK, 0)] := by
  have ht : frames SWITCH_MODE_PATTERN = transition_frames := by decide
  have hn : frames NORMAL_MODE_PATTERN = [(0, 1, 0), (1, 1, 0), (0, 1, 0), (1, 1, 0)] := by
    decide
  have hc : frames CONFIGURATION_MODE_PATTERN = [(0, 1, 1), (1, 1, 1), (0, 1, 0), (1, 1, 0)] := by
    decide
  have he : frames ERROR_DETECT_MODE_PATTERN =
      [ (0, 1, 1), (1, 1, 1), (0, 1, 0), (1, 1, 0),
        (0, 0, 0), (1, 0, 0), (0, 0, 0), (1, 0, 0) ] := by decide
  refine ⟨ht, ?_, ?_, ?_⟩
  · rw [writes_switch_mode, ht, hn]; rfl
  · rw [writes_switch_mode, ht, hc]; rfl
  · rw [writes_switch_mode, ht, he]; rfl

/-! ## Clock idles low -/

theorem last_write_snoc (p v : Int) (t : List Event) :
    last_write p (t ++ [Event.digitalWrite p v]) = some v := by
  simp [last_write, writes_to_append, writes_to]

theorem last_write_append_snoc (p v : Int) (a t : List Event) :
    last_write p (a ++ (t ++ [Event.digitalWrite p v])) = some v := by
  rw [← List.append_assoc]
  exact last_write_snoc p v (a ++ t)

theorem last_write_do_clk_ioe_le (d : Device) (T : List (Int × Int × Int)) :
    last_write d.CLK (do_clk_ioe_le d T).trace = some LOW := by
  simp only [do_clk_ioe_le, emit_trace]
  exact last_write_snoc _ _ _

theorem last_write_switch_mode (d : Device) (T : List (Int × Int × Int)) :
    last_write d.CLK (switch_mode d T).trace = some LOW := by
  rw [switch_mode_trace]
  simp only [do_clk_ioe_le, emit_trace]
  exact last_write_append_snoc _ _ _ _

theorem last_write_normal_mode (d : Device) (hLE : d.LE ≠ -1) (hOE : d.iOE ≠ -1) :
    last_write d.CLK (normal_mode d).trace = some LOW := by
  rw [normal_mode_trace d hLE hOE]
  exact last_write_switch_mode d _

/-- A trace that ends with the trace of a wired `normal_mode` ends with CLK low. -/
theorem last_write_then_normal_mode (d : Device) (hLE : d.LE ≠ -1) (hOE : d.iOE ≠ -1)
    (a : List Event) : last_write d.CLK (a ++ (normal_mode d).trace) = some LOW := by
  rw [normal_mode_trace d hLE hOE, switch_mode_trace]
  simp only [do_clk_ioe_le, emit_trace]
  rw [← List.append_assoc]
  exact last_write_append_snoc _ _ _ _

theorem level_after_of_last_write (prior p v : Int) (t : List Event)
    (h : last_write p t = some v) : level_after prior p t = v := by
  simp [level_after, h]

/-- The trace of `attach` on a device whose chain length is 0 starts with the
set-up of the new CLK and SDI pins. -/
theorem attach_trace_head (t : Int → Bool) (d : Device) (h : d.ct = 0)
    (n sdi clk le ioe sdo : Int) :
    ∃ rest, (attach t d n sdi clk le ioe sdo).trace =
      [ Event.pinMode clk PinMode.OUTPUT, Event.digitalWrite clk LOW,
        Event.pinMode sdi PinMode.OUTPUT ] ++ rest := by
  unfold attach
  rw [if_neg (by simp [h])]
  rw [run_cons_trace]
  exact ⟨_, rfl⟩

/-- Every level written with `digitalWrite` by a block is LOW when every step
writes only LOW, whatever device each step receives. -/
theorem writes_low_run (p : Int) (steps : List (Device → Outcome))
    (h : ∀ f ∈ steps, ∀ x, ∀ v ∈ writes_to p (f x).trace, v = LOW) (d : Device) :
    ∀ v ∈ writes_to p (run steps d).trace, v = LOW := by
  induction steps generalizing d with
  | nil => intro v hv; cases hv
  | cons f fs ih =>
    intro v hv
    rw [run_cons_trace, writes_to_append, List.mem_append] at hv
    rcases hv with hv | hv
    · exact h f (List.mem_cons_self _ _) d v hv
    · exact ih (fun g hg => h g (List.mem_cons_of_mem _ hg)) _ v hv

theorem writes_low_serial (p : Int) (l : List Event) (hl : ∀ e ∈ l, e = Event.serial) :
    ∀ v ∈ writes_to p l, v = LOW := by
  intro v hv
  simp only [writes_to, List.mem_filterMap] at hv
  obtain ⟨e, he, hev⟩ := hv
  rw [hl e he] at hev
  cases hev

theorem writes_low_on (p : Int) (x : Device) : ∀ v ∈ writes_to p («on» x).trace, v = LOW := by
  by_cases h : x.iOE = -1
  · unfold «on»
    rw [if_neg (by simp [h]), writes_to_debug_warn]
    intro v hv
    cases hv
  · rw [on_trace x h]
    simp only [writes_to_append, writes_to_debug_warn, List.nil_append]
    intro v hv
    by_cases hp : x.pwm = true <;> by_cases hq : x.iOE = p <;>
      simp [hp, hq, writes_to] at hv
    · exact hv
    · exact hv

/-- Every `digitalWrite` of a first `attach` writes LOW. -/
theorem writes_low_attach (t : Int → Bool) (d : Device) (h : d.ct = 0)
    (p n sdi clk le ioe sdo : Int) :
    ∀ v ∈ writes_to p (attach t d n sdi clk le ioe sdo).trace, v = LOW := by
  unfold attach
  rw [if_neg (by simp [h])]
  apply writes_low_run
  intro f hf x
  simp only [List.mem_cons, List.mem_singleton, List.not_mem_nil, or_false] at hf
  rcases hf with rfl | rfl | rfl | rfl | rfl | rfl
  · intro v hv
    by_cases hq : x.CLK = p <;> simp [hq, writes_to] at hv
    exact hv
  · beta_reduce
    split
    · exact writes_low_serial p _ (by simp [Outcome.andThen, emit, debug_prefix])
    · intro v hv; cases hv
  · beta_reduce
    split
    · apply writes_low_run
      intro g hg y
      simp only [List.mem_cons, List.mem_singleton, List.not_mem_nil, or_false] at hg
      rcases hg with rfl | rfl
      · beta_reduce
        split
        · exact writes_low_serial p _ (by simp [emit])
        · intro v hv; cases hv
      · intro v hv
        by_cases hq : y.LE = p <;> simp [hq, writes_to] at hv
        exact hv
    · intro v hv; cases hv
  · beta_reduce
    split
    · apply writes_low_run
      intro g hg y
      simp only [List.mem_cons, List.mem_singleton, List.not_mem_nil, or_false] at hg
      rcases hg with rfl | rfl | rfl
      · beta_reduce
        split
        · exact writes_low_serial p _ (by simp [emit])
        · intro v hv; cases hv
      · beta_reduce
        split
        · intro v hv; cases hv
        · intro v hv; cases hv
      · exact writes_low_on p y
    · intro v hv; cases hv
  · beta_reduce
    split
    · apply writes_low_run
      intro g hg y
      simp only [List.mem_cons, List.mem_singleton, List.not_mem_nil, or_false] at hg
      rcases hg with rfl | rfl
      · beta_reduce
        split
        · exact writes_low_serial p _ (by simp [emit])
        · intro v hv; cases hv
      · intro v hv; cases hv
    · intro v hv; cases hv
  · beta_reduce
    split
    · exact writes_low_serial p _ (by simp [emit])
    · intro v hv; cases hv

/-- A first `attach` leaves the clock pin low, whatever its level before. -/
theorem level_after_attach (t : Int → Bool) (d : Device) (h : d.ct = 0)
    (prior n sdi clk le ioe sdo : Int) :
    level_after prior clk (attach t d n sdi clk le ioe sdo).trace = LOW := by
  have hall := writes_low_attach t d h clk n sdi clk le ioe sdo
  obtain ⟨rest, hrest⟩ := attach_trace_head t d h n sdi clk le ioe sdo
  have hne : writes_to clk (attach t d n sdi clk le ioe sdo).trace ≠ [] := by
    rw [hrest, writes_to_append]
    simp [writes_to]
  unfold level_after last_write
  cases hl : (writes_to clk (attach t d n sdi clk le ioe sdo).trace).getLast? with
  | none => exact absurd (List.getLast?_eq_none_iff.1 hl) hne
  | some v =>
    have hv : v ∈ writes_to clk (attach t d n sdi clk le ioe sdo).trace :=
      List.mem_of_getLast?_eq_some hl
    simpa using hall v hv

/-- C3. Playing any of the five waveform tables with `do_clk_ioe_le` ends with
a write of LOW to the clock pin, and so does `switch_mode` for every table.
Consequently, on a device with LE and iOE wired, the clock line is low after
`switch_mode`, `normal_mode` and `config`, whatever its level before the call,
and it is low after `error_detect` given that it was low before the call, as it
is after `attach` and after each of these operations; with data-out wired as
well the clock is low after `error_detect` whatever its level before.  A first
`attach` on a fresh device leaves the clock line low. -/
theorem clock_low_after_tables (d : Device) :
    (∀ T ∈ [ NORMAL_MODE_PATTERN, SWITCH_MODE_PATTERN, ERROR_DETECT_MODE_PATTERN,
             ERROR_DETECT_READY, CONFIGURATION_MODE_PATTERN ],
        last_write d.CLK (do_clk_ioe_le d T).trace = some LOW)
    ∧ (∀ T prior, last_write d.CLK (switch_mode d T).trace = some LOW
        ∧ level_after prior d.CLK (switch_mode d T).trace = LOW)
    ∧ (d.LE ≠ -1 → d.iOE ≠ -1 →
        (∀ prior, level_after prior d.CLK (normal_mode d).trace = LOW
          ∧ ∀ c b g, level_after prior d.CLK (config d c b g).trace = LOW)
        ∧ (∀ sdo, level_after LOW d.CLK (error_detect d sdo).2.trace = LOW)
        ∧ (d.SDO ≠ -1 → ∀ prior sdo,
            level_after prior d.CLK (error_detect d sdo).2.trace = LOW))
    ∧ (∀ (t : Int → Bool) (prior n sdi clk le ioe sdo : Int),
        level_after prior clk (attach t TLC5926 n sdi clk le ioe sdo).trace = LOW) := by
  have hed : d.LE ≠ -1 → d.iOE ≠ -1 → d.SDO ≠ -1 → ∀ prior sdo,
      level_after prior d.CLK (error_detect d sdo).2.trace = LOW := by
    intro hLE hOE hSDO prior sdo
    apply level_after_of_last_write
    rw [(error_detect_trace d sdo hLE hOE hSDO).2.2]
    simp only [← List.append_assoc]
    exact last_write_then_normal_mode d hLE hOE _
  refine ⟨fun T _ => last_write_do_clk_ioe_le d T,
    fun T prior => ⟨last_write_switch_mode d T,
      level_after_of_last_write _ _ _ _ (last_write_switch_mode d T)⟩, ?_,
    fun t prior n sdi clk le ioe sdo => level_after_attach t TLC5926 rfl prior n sdi clk le ioe sdo⟩
  intro hLE hOE
  refine ⟨fun prior => ⟨level_after_of_last_write _ _ _ _ (last_write_normal_mode d hLE hOE),
      fun c b g => level_after_of_last_write _ _ _ _ ?_⟩, ?_, hed hLE hOE⟩
  · rw [config_trace d c b g hLE hOE]
    exact last_write_then_normal_mode d hLE hOE _
  · intro sdo
    by_cases hSDO : d.SDO = -1
    · unfold error_detect
      rw [if_pos (by simp [hSDO])]
      simp [level_after, last_write, writes_to_debug_warn]
    · exact hed hLE hOE hSDO LOW sdo

/-- Witness for C3 on the five-wire device, and on the four-wire device, which
has LE and iOE wired but no data-out and is what `attach(1, 2, 3, 4, 5, -1)`
leaves. -/
theorem clock_low_after_tables_witness :
    last_write five_wire.CLK (do_clk_ioe_le five_wire ERROR_DETECT_READY).trace = some LOW
    ∧ level_after HIGH five_wire.CLK (normal_mode five_wire).trace = LOW
    ∧ level_after HIGH five_wire.CLK (config five_wire 1 1 127).trace = LOW
    ∧ level_after HIGH five_wire.CLK (error_detect five_wire alternating).2.trace = LOW
    ∧ level_after LOW four_wire.CLK (error_detect four_wire alternating).2.trace = LOW
    ∧ level_after LOW four_wire.CLK (config four_wire 1 1 127).trace = LOW
    ∧ (attach uno_timer TLC5926 1 2 3 4 5 (-1)).dev = four_wire
    ∧ level_after HIGH 3 (attach uno_timer TLC5926 1 2 3 4 5 (-1)).trace = LOW :=
  ⟨(clock_low_after_tables five_wire).1 ERROR_DETECT_READY (by simp),
   (((clock_low_after_tables five_wire).2.2.1 (by decide) (by decide)).1 HIGH).1,
   (((clock_low_after_tables five_wire).2.2.1 (by decide) (by decide)).1 HIGH).2 1 1 127,
   ((clock_low_after_tables five_wire).2.2.1 (by decide) (by decide)).2.2 (by decide)
      HIGH alternating,
   ((clock_low_after_tables four_wire).2.2.1 (by decide) (by decide)).2.1 alternating,
   (((clock_low_after_tables four_wire).2.2.1 (by decide) (by decide)).1 LOW).2 1 1 127,
   by decide,
   (clock_low_after_tables four_wire).2.2.2 uno_timer HIGH 1 2 3 4 5 (-1)⟩

/-! ## Configuration register byte -/

/-- Bits of the masked gain: `voltage_gain & 0x3F` keeps bits 0..5 of the gain
(as a two's-complement integer) and clears the rest. -/
theorem testBit_masked_gain (g : Int) (i : Nat) :
    (Int.land g 0x003F).toNat.testBit i = (g.testBit i && decide (i < 6)) := by
  have h63 : ∀ k, (63 : Nat).testBit k = decide (k < 6) := by
    intro k
    have : (63 : Nat) = 2 ^ 6 - 1 := by norm_num
    rw [this, Nat.testBit_two_pow_sub_one]
  cases g with
  | ofNat n =>
    show (n &&& 63).testBit i = _
    rw [Nat.testBit_and, h63]
    rfl
  | negSucc n =>
    show (Nat.ldiff 63 n).testBit i = _
    rw [Nat.testBit_ldiff, h63, Bool.and_comm]
    rfl

theorem masked_gain_lt (g : Int) : (Int.land g 0x003F).toNat < 64 := by
  have h : (Int.land g 0x003F).toNat < 2 ^ 6 := by
    apply Nat.lt_pow_two_of_testBit
    intro i hi
    rw [testBit_masked_gain]
    have : ¬ i < 6 := by omega
    simp [this]
  simpa using h

theorem testBit_128 (i : Nat) : (0x80 : Nat).testBit i = decide (7 = i) := by
  have : (0x80 : Nat) = 2 ^ 7 := by norm_num
  rw [this, Nat.testBit_two_pow]

theorem testBit_64 (i : Nat) : (0x40 : Nat).testBit i = decide (6 = i) := by
  have : (0x40 : Nat) = 2 ^ 6 := by norm_num
  rw [this, Nat.testBit_two_pow]

/-- Every bit of the packed byte. -/
theorem testBit_config_value (c b g : Int) (i : Nat) :
    (config_value c b g).testBit i =
      ((g.testBit i && decide (i < 6)) || (decide (c ≠ 0) && decide (i = 7))
        || (decide (b ≠ 0) && decide (i = 6))) := by
  unfold config_value
  by_cases hc : c = 0 <;> by_cases hb : b = 0 <;>
    simp [hc, hb, Nat.testBit_lor, testBit_masked_gain, testBit_128, testBit_64, eq_comm]

theorem config_value_lt (c b g : Int) : config_value c b g < 256 := by
  have h : config_value c b g < 2 ^ 8 := by
    apply Nat.lt_pow_two_of_testBit
    intro i hi
    rw [testBit_config_value]
    have h1 : ¬ i < 6 := by omega
    have h2 : ¬ i = 7 := by omega
    have h3 : ¬ i = 6 := by omega
    simp [h1, h2, h3]
  simpa using h

/-- C4. For all integer arguments the byte packed by `config` is below 256;
its bits 5..0 are bits 5..0 of `voltage_gain` (so the byte modulo 64 is the gain
masked with `0x3F`, which is the gain modulo 64); bit 7 is set exactly when
`hi_lo_current` is nonzero and bit 6 exactly when `hi_lo_voltage_band` is
nonzero.  The three bytes of the spec: `config(1,1,63)` gives `0b11111111`,
`config(0,0,0)` gives `0`, `config(1,0,32)` gives `0b10100000`. -/
theorem config_value_packing (c b g : Int) :
    config_value c b g < 256
    ∧ (∀ i : Fin 6, (config_value c b g).testBit i = g.testBit i)
    ∧ config_value c b g % 64 = (Int.land g 0x3F).toNat
    ∧ ((config_value c b g % 64 : Nat) : Int) = g % 64
    ∧ ((config_value c b g).testBit 7 = true ↔ c ≠ 0)
    ∧ ((config_value c b g).testBit 6 = true ↔ b ≠ 0)
    ∧ config_value 1 1 63 = 0b11111111
    ∧ config_value 0 0 0 = 0b00000000
    ∧ config_value 1 0 32 = 0b10100000 := by
  have hmod : config_value c b g % 64 = (Int.land g 0x3F).toNat := by
    apply Nat.eq_of_testBit_eq
    intro i
    have h64 : (64 : Nat) = 2 ^ 6 := by norm_num
    rw [h64, Nat.testBit_mod_two_pow, testBit_config_value, testBit_masked_gain]
    by_cases hi : i < 6
    · have h2 : ¬ i = 7 := by omega
      have h3 : ¬ i = 6 := by omega
      simp [hi, h2, h3]
    · simp [hi]
  have hland : ((Int.land g 0x3F).toNat : Int) = g % 64 := by
    cases g with
    | ofNat n =>
      show (((n &&& 63 : Nat)) : Int) = (n : Int) % 64
      have h63 : (63 : Nat) = 2 ^ 6 - 1 := by norm_num
      rw [h63, Nat.and_pow_two_sub_one_eq_mod]
      norm_num
    | negSucc n =>
      show ((Nat.ldiff 63 n : Nat) : Int) = Int.negSucc n % 64
      rw [Int.negSucc_emod n (by norm_num)]
      have hl : Nat.ldiff 63 n = 2 ^ 6 - (n % 2 ^ 6 + 1) := by
        apply Nat.eq_of_testBit_eq
        intro i
        have h63 : (63 : Nat) = 2 ^ 6 - 1 := by norm_num
        rw [Nat.testBit_ldiff, h63, Nat.testBit_two_pow_sub_one,
          Nat.testBit_two_pow_sub_succ (Nat.mod_lt _ (by norm_num)), Nat.testBit_mod_two_pow]
        by_cases hi : i < 6 <;> simp [hi]
      rw [hl]
      have hlt : n % 2 ^ 6 < 2 ^ 6 := Nat.mod_lt _ (by norm_num)
      omega
  refine ⟨config_value_lt c b g, ?_, hmod, ?_, ?_, ?_, by decide, by decide, by decide⟩
  · intro i
    rw [testBit_config_value]
    have h1 : (i : Nat) < 6 := i.2
    have h2 : ¬ (i : Nat) = 7 := by omega
    have h3 : ¬ (i : Nat) = 6 := by omega
    simp [h1, h2, h3]
  · rw [hmod, hland]
  · rw [testBit_config_value]
    by_cases hc : c = 0 <;> simp [hc]
  · rw [testBit_config_value]
    by_cases hb : b = 0 <;> simp [hb]

/-! ## Error-detect read-back -/

/-- The calls of one iteration of the read-back loop. -/
theorem readback_step_trace (d : Device) (sdo : Nat → Nat) (acc : Nat × List Event) (i : Nat) :
    (readback_step d sdo acc i).2 =
      acc.2 ++ [ Event.digitalRead d.SDO, Event.serial,
                 Event.serial, Event.serial, Event.serial, Event.serial,
                 Event.digitalWrite d.CLK HIGH, Event.digitalWrite d.CLK LOW ] := rfl

/-- Trace of the first `n` iterations: the same eight calls each time. -/
theorem readback_fold_trace (d : Device) (sdo : Nat → Nat) (n : Nat) :
    ((List.range n).foldl (readback_step d sdo) (0, [])).2 =
      (List.range n).flatMap (fun _ =>
        [ Event.digitalRead d.SDO, Event.serial,
          Event.serial, Event.serial, Event.serial, Event.serial,
          Event.digitalWrite d.CLK HIGH, Event.digitalWrite d.CLK LOW ]) := by
  induction n with
  | zero => rfl
  | succ n ih =>
    rw [List.range_succ, List.foldl_append, List.flatMap_append]
    simp only [List.foldl_cons, List.foldl_nil, readback_step_trace, ih]
    simp

/-- One step of the status register without wrap-around: with the register below
`2 ^ 15` and a sample that is 0 or 1, `(status << 1) | r` is `2 * status + r`. -/
theorem status_step (a r : Nat) (ha : a < 2 ^ 15) (hr : r ≤ 1) :
    ((a <<< 1) ||| r) % 2 ^ 16 = 2 * a + r := by
  have h1 : a <<< 1 = 2 ^ 1 * a := by rw [Nat.shiftLeft_eq]; ring
  have h2 : 2 ^ 1 * a ||| r = 2 ^ 1 * a + r :=
    (Nat.mul_add_lt_is_or (by omega : r < 2 ^ 1) a).symm
  rw [h1, h2]
  apply Nat.mod_eq_of_lt
  omega

/-- Loop invariant of the read-back: after `n ≤ 16` iterations the status is the
binary number whose digits are the first `n` samples, first sample most
significant, and it is below `2 ^ n`. -/
theorem readback_fold_status (d : Device) (sdo : Nat → Nat) (hs : ∀ i, i < 16 → sdo i ≤ 1)
    (n : Nat) (hn : n ≤ 16) :
    ((List.range n).foldl (readback_step d sdo) (0, [])).1
        = ∑ i in Finset.range n, sdo i * 2 ^ (n - 1 - i)
    ∧ ((List.range n).foldl (readback_step d sdo) (0, [])).1 < 2 ^ n := by
  induction n with
  | zero => simp
  | succ n ih =>
    have ih2 := ih (by omega)
    have hlt15 : ((List.range n).foldl (readback_step d sdo) (0, [])).1 < 2 ^ 15 :=
      lt_of_lt_of_le ih2.2 (Nat.pow_le_pow_right (by norm_num) (by omega))
    have hstep : ((List.range (n + 1)).foldl (readback_step d sdo) (0, [])).1
        = 2 * ((List.range n).foldl (readback_step d sdo) (0, [])).1 + sdo n := by
      rw [List.range_succ, List.foldl_append]
      simp only [List.foldl_cons, List.foldl_nil, readback_step]
      exact status_step _ _ hlt15 (hs n (by omega))
    have hsum : ∑ i in Finset.range (n + 1), sdo i * 2 ^ (n + 1 - 1 - i)
        = 2 * (∑ i in Finset.range n, sdo i * 2 ^ (n - 1 - i)) + sdo n := by
      rw [Finset.sum_range_succ, Finset.mul_sum]
      have hlast : sdo n * 2 ^ (n + 1 - 1 - n) = sdo n := by simp
      rw [hlast]
      congr 1
      apply Finset.sum_congr rfl
      intro i hi
      have hi2 : i < n := Finset.mem_range.1 hi
      have hexp : n + 1 - 1 - i = (n - 1 - i) + 1 := by omega
      rw [hexp, pow_succ]
      ring
    refine ⟨?_, ?_⟩
    · rw [hstep, hsum, ih2.1]
    · rw [hstep]
      have hr : sdo n ≤ 1 := hs n (by omega)
      have h2 := ih2.2
      rw [pow_succ]
      omega

theorem pin_events_append (a b : List Event) :
    pin_events (a ++ b) = pin_events a ++ pin_events b := by
  simp [pin_events, List.filter_append]

/-- The `digitalRead` calls of a trace. -/
theorem reads_debug_warn (d : Device) (p : Int) : Event.digitalRead p ∉ (debug_warn d).trace := by
  rw [debug_warn_trace]
  split <;> simp

theorem reads_play_rows (d : Device) (p : Int) (T : List (Int × Int × Int)) :
    Event.digitalRead p ∉ play_rows d T := by
  induction T with
  | nil => simp [play_rows]
  | cons r rest ih =>
    by_cases h : r.1 = -1
    · simp [play_rows, h]
    · simp [play_rows, h, ih]

theorem reads_do_clk_ioe_le (d : Device) (p : Int) (T : List (Int × Int × Int)) :
    Event.digitalRead p ∉ (do_clk_ioe_le d T).trace := by
  simp [do_clk_ioe_le, reads_play_rows]

theorem reads_switch_mode (d : Device) (p : Int) (T : List (Int × Int × Int)) :
    Event.digitalRead p ∉ (switch_mode d T).trace := by
  rw [switch_mode_trace]
  by_cases hp : d.pwm = true <;>
    simp [hp, reads_debug_warn, reads_do_clk_ioe_le]

theorem reads_normal_mode (d : Device) (p : Int) :
    Event.digitalRead p ∉ (normal_mode d).trace := by
  unfold normal_mode
  split
  · exact reads_debug_warn d p
  · exact reads_switch_mode d p _

theorem reads_send (d : Device) (p : Int) (W : Nat) :
    Event.digitalRead p ∉ (send d W).trace := by
  rw [send_trace, shift_trace]
  by_cases h : d.LE = -1 <;> simp [h]

theorem not_read_pin_events (p : Int) (t : List Event) (h : Event.digitalRead p ∉ t) :
    Event.digitalRead p ∉ pin_events t := fun hp => h (List.mem_filter.1 hp).1

/-- C5. On a device with LE, iOE and data-out wired, whatever the chain length,
and for every stream of samples that are 0 or 1: the status returned by
`error_detect` is the sum of `s i * 2 ^ (15 - i)` over the sixteen samples
(first sample is bit 15, last is bit 0) and is below `2 ^ 16`; and the pin
calls of the trace are some calls without any `digitalRead`, then exactly
sixteen groups "read data-out, clock high, clock low", then calls without any
`digitalRead`. -/
theorem error_detect_readback (d : Device) (sdo : Nat → Nat)
    (hLE : d.LE ≠ -1) (hOE : d.iOE ≠ -1) (hSDO : d.SDO ≠ -1)
    (hs : ∀ i, i < 16 → sdo i ≤ 1) :
    (error_detect d sdo).1 = ∑ i in Finset.range 16, sdo i * 2 ^ (15 - i)
    ∧ (error_detect d sdo).1 < 2 ^ 16
    ∧ ∃ pre post,
        pin_events (error_detect d sdo).2.trace =
          pre ++ (List.range 16).flatMap (fun _ =>
                    [ Event.digitalRead d.SDO,
                      Event.digitalWrite d.CLK HIGH,
                      Event.digitalWrite d.CLK LOW ]) ++ post
        ∧ (∀ p, Event.digitalRead p ∉ pre) ∧ (∀ p, Event.digitalRead p ∉ post) := by
  obtain ⟨h1, _, h3⟩ := error_detect_trace d sdo hLE hOE hSDO
  have hst := readback_fold_status d sdo hs 16 (le_refl 16)
  have hmid : pin_events (readback d sdo).2 =
      (List.range 16).flatMap (fun _ =>
        [ Event.digitalRead d.SDO, Event.digitalWrite d.CLK HIGH,
          Event.digitalWrite d.CLK LOW ]) := by
    unfold readback
    rw [readback_fold_trace]
    simp [range16, pin_events, List.flatMap_cons]
  have hpre : ∀ p, Event.digitalRead p ∉ pin_events ((send d 0xFFFF).trace
        ++ (switch_mode d ERROR_DETECT_MODE_PATTERN).trace
        ++ [Event.delayMicroseconds 3]
        ++ (debug_warn d).trace
        ++ (do_clk_ioe_le d ERROR_DETECT_READY).trace
        ++ (debug_warn d).trace
        ++ [Event.pinMode d.SDO PinMode.INPUT, Event.digitalWrite d.SDI LOW]) := by
    intro p
    apply not_read_pin_events
    simp only [List.mem_append, not_or]
    refine ⟨⟨⟨⟨⟨⟨reads_send d p _, reads_switch_mode d p _⟩, by simp⟩,
      reads_debug_warn d p⟩, reads_do_clk_ioe_le d p _⟩, reads_debug_warn d p⟩, by simp⟩
  have hpost : ∀ p, Event.digitalRead p ∉ pin_events ([Event.serial]
        ++ (if d.debugging then
              [Event.serial, Event.serial, Event.serial, Event.serial, Event.serial]
            else [])
        ++ [Event.pinMode d.SDO PinMode.OUTPUT]
        ++ (normal_mode d).trace) := by
    intro p
    apply not_read_pin_events
    simp only [List.mem_append, not_or]
    refine ⟨⟨⟨by simp, ?_⟩, by simp⟩, reads_normal_mode d p⟩
    split <;> simp
  refine ⟨?_, ?_, _, _, ?_, hpre, hpost⟩
  · rw [h1]
    exact hst.1
  · rw [h1]
    exact hst.2
  · rw [h3, pin_events_append, pin_events_append, hmid]

/-- Witness for C5: the five-wire device reading the alternating stream
1, 0, 1, 0, ... returns `0xAAAA`. -/
theorem error_detect_readback_witness :
    (error_detect five_wire alternating).1 = ∑ i in Finset.range 16, alternating i * 2 ^ (15 - i)
    ∧ (error_detect five_wire alternating).1 < 2 ^ 16
    ∧ (error_detect five_wire alternating).1 = 0xAAAA :=
  have h := error_detect_readback five_wire alternating (by decide) (by decide) (by decide)
    (by intro i _; unfold alternating; split <;> omega)
  ⟨h.1, h.2.1, by decide⟩

theorem pin_events_debug_warn (d : Device) : pin_events (debug_warn d).trace = [] := by
  rw [debug_warn_trace]
  split <;> rfl

/-- C6. If any of LE, iOE or data-out is absent, `error_detect` returns 0,
leaves the device record unchanged, and its trace holds no pin write, pin read,
pin-direction change, duty-cycle write or delay (at most the `Serial` calls of
the warning). -/
theorem error_detect_unwired (d : Device) (sdo : Nat → Nat)
    (h : d.LE = -1 ∨ d.iOE = -1 ∨ d.SDO = -1) :
    (error_detect d sdo).1 = 0
    ∧ (error_detect d sdo).2.dev = d
    ∧ pin_events (error_detect d sdo).2.trace = [] := by
  unfold error_detect
  rw [if_pos h]
  exact ⟨rfl, debug_warn_dev d, pin_events_debug_warn d⟩

/-- Witness for C6: the four-wire device has no data-out. -/
theorem error_detect_unwired_witness :
    (error_detect four_wire alternating).1 = 0
    ∧ (error_detect four_wire alternating).2.dev = four_wire
    ∧ pin_events (error_detect four_wire alternating).2.trace = [] :=
  error_detect_unwired four_wire alternating (by decide)

/-! ## Brightness -/

/-- Bitwise complement of an `int`. -/
theorem int_complement (x : Int) : ~~~ x = -1 - x := by
  cases x with
  | ofNat n =>
    show Int.negSucc n = -1 - (n : Int)
    rw [Int.negSucc_eq]
    ring
  | negSucc n =>
    show (n : Int) = -1 - Int.negSucc n
    rw [Int.negSucc_eq]
    ring

/-- On a device with iOE wired and on a timer, `brightness` makes exactly one
call, an `analogWrite` on iOE, and the `int` it passes is `-1 - c` for `c` the
argument converted to `char`.  For a level in 0..255 that value is congruent to
`255 - level` modulo 256; it equals `255 - level` for levels 128..255 and
`-1 - level` for levels 0..127. -/
theorem brightness_complement (d : Device) (level : Int)
    (hOE : d.iOE ≠ -1) (hpwm : d.pwm = true) :
    (brightness d level).trace = [Event.analogWrite d.iOE (-1 - to_char level)]
    ∧ (0 ≤ level → level ≤ 255 → (-1 - to_char level) % 256 = 255 - level)
    ∧ (128 ≤ level → level ≤ 255 → -1 - to_char level = 255 - level)
    ∧ (0 ≤ level → level ≤ 127 → -1 - to_char level = -1 - level) := by
  refine ⟨?_, ?_, ?_, ?_⟩
  · unfold brightness
    rw [if_neg hOE, if_neg (by simp [hpwm])]
    simp only [emit_trace]
    rw [int_complement]
  · intro h0 h1
    unfold to_char
    omega
  · intro h0 h1
    unfold to_char
    omega
  · intro h0 h1
    unfold to_char
    omega

/-- C7 (the code at the failing inputs). On the four-wire device (iOE on timer
pin 5) `brightness(0)` passes `-1` to `analogWrite`, not `255`, and
`brightness(100)` passes `-101`, not `155`; `brightness(200)` passes `55`. -/
theorem brightness_low_levels_negative :
    (brightness four_wire 0).trace = [Event.analogWrite 5 (-1)]
    ∧ (brightness four_wire 100).trace = [Event.analogWrite 5 (-101)]
    ∧ (brightness four_wire 200).trace = [Event.analogWrite 5 55]
    ∧ (brightness four_wire 0).trace ≠ [Event.analogWrite 5 (255 - 0)] := by
  decide

/-! ## Reset -/

theorem keep_if_step (c : Device → Prop) [DecidablePred c] (f : Device → Outcome)
    (hf : ∀ x, (f x).dev = x) (x : Device) :
    ((fun d1 : Device => if c d1 then f d1 else skip d1) x).dev = x := by
  beta_reduce
  split
  · exact hf x
  · rfl

/-- The trace of `reset` as the concatenation of its seven steps. -/
theorem reset_trace (d : Device) :
    (reset d).trace =
      (if d.pwm then [Event.pinMode d.iOE PinMode.OUTPUT] else [])
        ++ (if d.iOE ≠ -1 ∧ d.LE ≠ -1 then (normal_mode d).trace else [])
        ++ (if d.iOE ≠ -1 then (off d).trace else [])
        ++ (if d.SDO ≠ -1 then [Event.pinMode d.SDO PinMode.INPUT] else [])
        ++ (all d LOW).trace
        ++ (if d.iOE ≠ -1 ∧ d.LE ≠ -1 then (config d 1 1 127).trace else [])
        ++ (if d.iOE ≠ -1 then («on» d).trace else []) := by
  unfold reset
  rw [(run_of_keep _ d
        (keep_of_mem_cons keep_pwm_step
        (keep_of_mem_cons (keep_if_step _ _ normal_mode_dev)
        (keep_of_mem_cons (keep_if_step _ _ off_dev)
        (keep_of_mem_cons (keep_if_step _ _ (fun _ => rfl))
        (keep_of_mem_cons (fun x => all_dev x LOW)
        (keep_of_mem_cons (keep_if_step _ _ (fun x => config_dev x 1 1 127))
        (keep_of_mem_cons (keep_if_step _ _ on_dev) keep_nil)))))))).2]
  simp only [List.flatMap_cons, List.flatMap_nil, List.append_nil, List.append_assoc]
  congr 1
  · split <;> rfl
  congr 1
  · split <;> rfl
  congr 1
  · split <;> rfl
  congr 1
  · split <;> rfl
  congr 1
  congr 1
  · split <;> rfl
  · split <;> rfl

/-- C8. For every device with iOE wired, whatever the other wiring, the chain
length and the flags, the last call of `reset` is `digitalWrite(iOE, LOW)`; so
the last level `reset` writes to the output-enable pin is LOW (outputs
enabled), and the device record is unchanged. -/
theorem reset_ends_enabled (d : Device) (h : d.iOE ≠ -1) :
    (reset d).trace.getLast? = some (Event.digitalWrite d.iOE LOW)
    ∧ last_write d.iOE (reset d).trace = some LOW
    ∧ (reset d).dev = d := by
  have ht : ∃ pre, (reset d).trace = pre ++ [Event.digitalWrite d.iOE LOW] := by
    rw [reset_trace, on_trace d h]
    simp only [if_pos h]
    exact ⟨_, (List.append_assoc _ _ _).symm⟩
  obtain ⟨pre, hpre⟩ := ht
  refine ⟨?_, ?_, reset_dev d⟩
  · rw [hpre]
    simp
  · rw [hpre]
    exact last_write_snoc _ _ _

/-- Witness for C8: the five-wire device, and a device with iOE but no LE. -/
theorem reset_ends_enabled_witness :
    last_write five_wire.iOE (reset five_wire).trace = some LOW
    ∧ last_write oe_only.iOE (reset oe_only).trace = some LOW :=
  ⟨(reset_ends_enabled five_wire (by decide)).2.1,
   (reset_ends_enabled oe_only (by decide)).2.1⟩

/-! ## Send -/

/-- The device left by the two-argument `attach` on a fresh device. -/
theorem attach_sdi_clk_dev (t : Int → Bool) (sdi clk : Int) :
    (attach_sdi_clk t TLC5926 sdi clk).dev =
      { SDI := sdi, CLK := clk, LE := -1, iOE := -1, SDO := -1, ct := 1,
        debugging := false, pwm := false } := by
  simp [attach_sdi_clk, attach, TLC5926, run, Outcome.andThen, skip, emit]

/-- C9. For every word `W`, the trace of `send(W)` is the trace of `shift(W)`
followed by the latch pulse (LE high, LE low) exactly when LE is wired, and the
device record is unchanged.  When LE is absent the trace is that of `shift(W)`
alone.  In particular, after `attach(sdi, clk)` on a fresh device,
`send(0xAAAA)` makes the sixteen data/clock groups with data 1, 0, 1, 0, ...
and no other call. -/
theorem send_shift_then_latch (d : Device) (W : Nat) :
    (send d W).trace =
      (shift d W).trace
        ++ (if d.LE ≠ -1 then [Event.digitalWrite d.LE HIGH, Event.digitalWrite d.LE LOW]
            else [])
    ∧ (send d W).dev = d
    ∧ (d.LE = -1 → (send d W).trace = (shift d W).trace)
    ∧ (∀ (t : Int → Bool) (sdi clk : Int),
        (send (attach_sdi_clk t TLC5926 sdi clk).dev 0xAAAA).trace =
          (List.range 16).flatMap (fun i =>
            [ Event.digitalWrite sdi (if i % 2 = 0 then 1 else 0),
              Event.digitalWrite clk HIGH,
              Event.digitalWrite clk LOW ])) := by
  refine ⟨send_trace d W, send_dev d W, ?_, ?_⟩
  · intro h
    rw [send_trace]
    simp [h]
  · intro t sdi clk
    rw [attach_sdi_clk_dev, send_trace, shift_trace]
    simp only [range16, List.flatMap_cons, List.flatMap_nil]
    simp
    decide

/-- Witness for C9: a two-wire device, where `send` is `shift`. -/
theorem send_shift_then_latch_witness :
    (send (attach_sdi_clk uno_timer TLC5926 2 3).dev 0xAAAA).trace
      = (shift (attach_sdi_clk uno_timer TLC5926 2 3).dev 0xAAAA).trace
    ∧ writes_to 2 (send (attach_sdi_clk uno_timer TLC5926 2 3).dev 0xAAAA).trace
      = [1, 0, 1, 0, 1, 0, 1, 0, 1, 0, 1, 0, 1, 0, 1, 0] :=
  ⟨(send_shift_then_latch (attach_sdi_clk uno_timer TLC5926 2 3).dev 0xAAAA).2.2.1 (by decide),
   by decide⟩

/-! ## Attach -/

/-- C10 (the code at the failing input). A first `attach` with iOE on pin 7,
which is not a timer pin: the calls are the set-up of CLK, SDI and LE and a
`digitalWrite(7, LOW)`; no `pinMode(7, OUTPUT)` is made, and `pwm` stays false.
With iOE on timer pin 5 the call `pinMode(5, OUTPUT)` is there. -/
theorem attach_non_timer_pin_not_configured :
    (attach uno_timer TLC5926 1 2 3 4 7 (-1)).trace =
      [ Event.pinMode 3 PinMode.OUTPUT, Event.digitalWrite 3 LOW,
        Event.pinMode 2 PinMode.OUTPUT,
        Event.pinMode 4 PinMode.OUTPUT, Event.digitalWrite 4 LOW,
        Event.digitalWrite 7 LOW ]
    ∧ Event.pinMode 7 PinMode.OUTPUT ∉ (attach uno_timer TLC5926 1 2 3 4 7 (-1)).trace
    ∧ (attach uno_timer TLC5926 1 2 3 4 7 (-1)).dev.pwm = false
    ∧ (attach uno_timer TLC5926 1 2 3 4 5 (-1)).trace =
      [ Event.pinMode 3 PinMode.OUTPUT, Event.digitalWrite 3 LOW,
        Event.pinMode 2 PinMode.OUTPUT,
        Event.pinMode 4 PinMode.OUTPUT, Event.digitalWrite 4 LOW,
        Event.pinMode 5 PinMode.OUTPUT, Event.digitalWrite 5 LOW ] := by
  decide

/-! ## Default configuration written by reset -/

theorem shiftOut_lsb (dp cp : Int) (v : Nat) (h : v < 256) :
    shiftOut dp cp BitOrder.LSBFIRST v =
      (List.range 8).flatMap (fun i =>
        [ Event.digitalWrite dp (if v.testBit i then 1 else 0),
          Event.digitalWrite cp HIGH,
          Event.digitalWrite cp LOW ]) := by
  unfold shiftOut
  rw [Nat.mod_eq_of_lt h]
  simp [bitLevel]

theorem shiftOut_zero (dp cp : Int) :
    shiftOut dp cp BitOrder.MSBFIRST 0 =
      (List.range 8).flatMap (fun _ =>
        [ Event.digitalWrite dp 0,
          Event.digitalWrite cp HIGH,
          Event.digitalWrite cp LOW ]) := by
  unfold shiftOut
  simp [bitLevel]

theorem latch_pulse_trace (d : Device) (h : d.LE ≠ -1) :
    (latch_pulse d).trace = [Event.digitalWrite d.LE HIGH, Event.digitalWrite d.LE LOW] := by
  unfold latch_pulse
  rw [if_pos h]
  rfl

/-- The trace of `reset` on a device with LE and iOE wired. -/
theorem reset_trace_wired (d : Device) (hLE : d.LE ≠ -1) (hOE : d.iOE ≠ -1) :
    (reset d).trace =
      (if d.pwm then [Event.pinMode d.iOE PinMode.OUTPUT] else [])
        ++ (normal_mode d).trace
        ++ (off d).trace
        ++ (if d.SDO ≠ -1 then [Event.pinMode d.SDO PinMode.INPUT] else [])
        ++ (all d LOW).trace
        ++ (config d 1 1 127).trace
        ++ («on» d).trace := by
  rw [reset_trace]
  simp only [if_pos hOE, if_pos (And.intro hOE hLE)]

/-- C11 (as amended). On a device with LE and iOE wired, `reset` runs
`config(1, 1, 127)` between `all(LOW)` and the final `on()`, and the register
byte that call shifts out, least significant bit first, is `0xFF`: bit 7
(current-range select) is set, bit 6 (voltage-band select) is set, and bits
5..0 are 63, the gain 127 masked to six bits.  All eight data levels are 1. -/
theorem reset_default_config (d : Device) (hLE : d.LE ≠ -1) (hOE : d.iOE ≠ -1) :
    (reset d).trace =
      (if d.pwm then [Event.pinMode d.iOE PinMode.OUTPUT] else [])
        ++ (normal_mode d).trace
        ++ (off d).trace
        ++ (if d.SDO ≠ -1 then [Event.pinMode d.SDO PinMode.INPUT] else [])
        ++ (all d LOW).trace
        ++ (config d 1 1 127).trace
        ++ («on» d).trace
    ∧ (config d 1 1 127).trace =
      (send d 0xFFFF).trace
        ++ (switch_mode d CONFIGURATION_MODE_PATTERN).trace
        ++ shiftOut d.SDI d.CLK BitOrder.MSBFIRST 0
        ++ shiftOut d.SDI d.CLK BitOrder.LSBFIRST 0xFF
        ++ (latch_pulse d).trace
        ++ (normal_mode d).trace
    ∧ shiftOut d.SDI d.CLK BitOrder.LSBFIRST 0xFF =
        (List.range 8).flatMap (fun _ =>
          [ Event.digitalWrite d.SDI 1,
            Event.digitalWrite d.CLK HIGH,
            Event.digitalWrite d.CLK LOW ])
    ∧ config_value 1 1 127 = 0xFF
    ∧ (config_value 1 1 127).testBit 7 = true
    ∧ (config_value 1 1 127).testBit 6 = true
    ∧ config_value 1 1 127 % 64 = 63 := by
  have hv : config_value 1 1 127 = 0xFF := by decide
  refine ⟨reset_trace_wired d hLE hOE, ?_, ?_, hv, by decide, by decide, by decide⟩
  · rw [config_trace d 1 1 127 hLE hOE, hv]
  · simp [shiftOut, bitLevel, range8]
    decide

/-- Witness for C11 on the five-wire device. -/
theorem reset_default_config_witness :
    (config five_wire 1 1 127).trace =
      (send five_wire 0xFFFF).trace
        ++ (switch_mode five_wire CONFIGURATION_MODE_PATTERN).trace
        ++ shiftOut five_wire.SDI five_wire.CLK BitOrder.MSBFIRST 0
        ++ shiftOut five_wire.SDI five_wire.CLK BitOrder.LSBFIRST 0xFF
        ++ (latch_pulse five_wire).trace
        ++ (normal_mode five_wire).trace :=
  (reset_default_config five_wire (by decide) (by decide)).2.1

/-- Counterexample to C11 as stated: on the five-wire device (LE and iOE wired)
the byte shifted by the `config` call of `reset` has bit 7 and bit 6 set. -/
theorem reset_config_byte_has_range_bits_set :
    five_wire.LE ≠ -1 ∧ five_wire.iOE ≠ -1
    ∧ (reset five_wire).trace =
        [Event.pinMode 5 PinMode.OUTPUT]
          ++ (normal_mode five_wire).trace
          ++ (off five_wire).trace
          ++ [Event.pinMode 6 PinMode.INPUT]
          ++ (all five_wire LOW).trace
          ++ ((send five_wire 0xFFFF).trace
              ++ (switch_mode five_wire CONFIGURATION_MODE_PATTERN).trace
              ++ shiftOut 2 3 BitOrder.MSBFIRST 0
              ++ shiftOut 2 3 BitOrder.LSBFIRST (config_value 1 1 127)
              ++ (latch_pulse five_wire).trace
              ++ (normal_mode five_wire).trace)
          ++ («on» five_wire).trace
    ∧ ¬ ((config_value 1 1 127).testBit 7 = false)
    ∧ ¬ ((config_value 1 1 127).testBit 6 = false) := by
  refine ⟨by decide, by decide, ?_, by decide, by decide⟩
  rw [reset_trace_wired five_wire (by decide) (by decide),
    config_trace five_wire 1 1 127 (by decide) (by decide)]
  rfl

/-! ## Operations that do nothing -/

/-- C12. For every device whose chain length is nonzero and every argument
tuple, a further `attach` (the six-argument form and the three overloads)
returns the device record unchanged, field for field, and its trace holds no
pin-direction change, pin write, pin read, duty-cycle write or delay (at most
the `Serial` calls of the warning). -/
theorem attach_again_noop (on_timer : Int → Bool) (d : Device) (h : d.ct ≠ 0)
    (chained_ct sdi_pin clk_pin le_pin ioe_pin sdo_pin : Int) :
    (attach on_timer d chained_ct sdi_pin clk_pin le_pin ioe_pin sdo_pin).dev = d
    ∧ pin_events (attach on_timer d chained_ct sdi_pin clk_pin le_pin ioe_pin sdo_pin).trace = []
    ∧ (attach_sdi_clk on_timer d sdi_pin clk_pin).dev = d
    ∧ pin_events (attach_sdi_clk on_timer d sdi_pin clk_pin).trace = []
    ∧ (attach_ct_sdi_clk on_timer d chained_ct sdi_pin clk_pin).dev = d
    ∧ pin_events (attach_ct_sdi_clk on_timer d chained_ct sdi_pin clk_pin).trace = []
    ∧ (attach_sdi_clk_le_ioe on_timer d sdi_pin clk_pin le_pin ioe_pin).dev = d
    ∧ pin_events (attach_sdi_clk_le_ioe on_timer d sdi_pin clk_pin le_pin ioe_pin).trace = [] := by
  have key : ∀ a b c e f g, (attach on_timer d a b c e f g).dev = d
      ∧ pin_events (attach on_timer d a b c e f g).trace = [] := by
    intro a b c e f g
    unfold attach
    rw [if_pos h]
    exact ⟨debug_warn_dev d, pin_events_debug_warn d⟩
  exact ⟨(key _ _ _ _ _ _).1, (key _ _ _ _ _ _).2, (key _ _ _ _ _ _).1, (key _ _ _ _ _ _).2,
    (key _ _ _ _ _ _).1, (key _ _ _ _ _ _).2, (key _ _ _ _ _ _).1, (key _ _ _ _ _ _).2⟩

/-- Witness for C12: a second `attach` with other pins on the five-wire device. -/
theorem attach_again_noop_witness :
    (attach uno_timer five_wire 3 8 9 10 11 12).dev = five_wire
    ∧ pin_events (attach uno_timer five_wire 3 8 9 10 11 12).trace = [] :=
  ⟨(attach_again_noop uno_timer five_wire (by decide) 3 8 9 10 11 12).1,
   (attach_again_noop uno_timer five_wire (by decide) 3 8 9 10 11 12).2.1⟩

/-- C13. For every level, when iOE is absent, and likewise when iOE is wired
but `pwm` is false, `brightness` leaves the device record unchanged and its
trace holds no duty-cycle write, pin write or pin-direction change (at most the
`Serial` calls of the warning). -/
theorem brightness_noop (d : Device) (level : Int) (h : d.iOE = -1 ∨ d.pwm = false) :
    (brightness d level).dev = d
    ∧ pin_events (brightness d level).trace = []
    ∧ ∀ v, Event.analogWrite d.iOE v ∉ (brightness d level).trace := by
  have key : brightness d level = debug_warn d := by
    unfold brightness
    by_cases h1 : d.iOE = -1
    · rw [if_pos h1]
    · rw [if_neg h1]
      rcases h with h | h
      · exact absurd h h1
      · rw [if_pos h]
  rw [key]
  refine ⟨debug_warn_dev d, pin_events_debug_warn d, ?_⟩
  intro v
  rw [debug_warn_trace]
  split <;> simp

/-- Witness for C13: a device without iOE, and one with iOE on a pin without timer. -/
theorem brightness_noop_witness :
    pin_events (brightness (attach_sdi_clk uno_timer TLC5926 2 3).dev 200).trace = []
    ∧ pin_events (brightness oe_only 200).trace = [] :=
  ⟨(brightness_noop (attach_sdi_clk uno_timer TLC5926 2 3).dev 200 (by decide)).2.1,
   (brightness_noop oe_only 200 (by decide)).2.1⟩

/-! ## Order of the calls in config, error_detect and reset -/

theorem shift_ones (d : Device) :
    (shift d 0xFFFF).trace =
      (List.range 16).flatMap (fun _ =>
        [ Event.digitalWrite d.SDI 1,
          Event.digitalWrite d.CLK HIGH,
          Event.digitalWrite d.CLK LOW ]) := by
  rw [shift_trace]
  simp only [range16, List.flatMap_cons, List.flatMap_nil]
  simp
  decide

theorem shift_zeros (d : Device) :
    (shift d 0).trace =
      (List.range 16).flatMap (fun _ =>
        [ Event.digitalWrite d.SDI 0,
          Event.digitalWrite d.CLK HIGH,
          Event.digitalWrite d.CLK LOW ]) := by
  rw [shift_trace]
  simp only [range16, List.flatMap_cons, List.flatMap_nil]
  simp

/-- C14. On a device with LE and iOE wired, for all arguments, the trace of
`config` is, in order: the trace of `send(0xFFFF)` (sixteen data-1 clock pulses
and the latch pulse); the trace of `switch_mode` with the Configuration table;
eight clock pulses with data 0; eight clock pulses whose data levels are bit 0
of the packed byte first up to bit 7 last; the latch pulse (LE high, LE low);
the trace of `normal_mode`.  The device record is unchanged. -/
theorem config_trace_order (d : Device) (c b g : Int) (hLE : d.LE ≠ -1) (hOE : d.iOE ≠ -1) :
    (config d c b g).trace =
      (send d 0xFFFF).trace
        ++ (switch_mode d CONFIGURATION_MODE_PATTERN).trace
        ++ (List.range 8).flatMap (fun _ =>
              [ Event.digitalWrite d.SDI 0,
                Event.digitalWrite d.CLK HIGH,
                Event.digitalWrite d.CLK LOW ])
        ++ (List.range 8).flatMap (fun i =>
              [ Event.digitalWrite d.SDI (if (config_value c b g).testBit i then 1 else 0),
                Event.digitalWrite d.CLK HIGH,
                Event.digitalWrite d.CLK LOW ])
        ++ [Event.digitalWrite d.LE HIGH, Event.digitalWrite d.LE LOW]
        ++ (normal_mode d).trace
    ∧ (send d 0xFFFF).trace =
        (List.range 16).flatMap (fun _ =>
          [ Event.digitalWrite d.SDI 1,
            Event.digitalWrite d.CLK HIGH,
            Event.digitalWrite d.CLK LOW ])
        ++ [Event.digitalWrite d.LE HIGH, Event.digitalWrite d.LE LOW]
    ∧ (normal_mode d).trace = (switch_mode d NORMAL_MODE_PATTERN).trace
    ∧ (config d c b g).dev = d := by
  refine ⟨?_, ?_, normal_mode_trace d hLE hOE, config_dev d c b g⟩
  · rw [config_trace d c b g hLE hOE, shiftOut_zero,
      shiftOut_lsb _ _ _ (config_value_lt c b g), latch_pulse_trace d hLE]
  · rw [send_trace, shift_ones, if_pos hLE]

/-- Witness for C14 on the five-wire device with `config(1, 0, 32)`. -/
theorem config_trace_order_witness :
    (send five_wire 0xFFFF).trace =
        (List.range 16).flatMap (fun _ =>
          [ Event.digitalWrite five_wire.SDI 1,
            Event.digitalWrite five_wire.CLK HIGH,
            Event.digitalWrite five_wire.CLK LOW ])
        ++ [Event.digitalWrite five_wire.LE HIGH, Event.digitalWrite five_wire.LE LOW]
    ∧ (config five_wire 1 0 32).dev = five_wire :=
  ⟨(config_trace_order five_wire 1 0 32 (by decide) (by decide)).2.1,
   (config_trace_order five_wire 1 0 32 (by decide) (by decide)).2.2.2⟩

theorem pin_events_send (d : Device) (W : Nat) :
    pin_events (send d W).trace = (send d W).trace := by
  rw [send_trace, shift_trace]
  by_cases h : d.LE = -1 <;>
    simp [h, pin_events, range16, List.flatMap_cons]

/-- C15. On a device with LE, iOE and data-out wired, the pin calls of
`error_detect` are, in order: those of `send(0xFFFF)`; those of `switch_mode`
with the Error-Detect table; `delayMicroseconds(3)`; the three frames of the
readback-ready table and CLK low; data-out set to input and SDI driven low;
sixteen groups "read data-out, CLK high, CLK low"; data-out set to output; those
of `normal_mode`, whose writes are the transition frames followed by the Normal
frames.  The delay is at least 2 microseconds. -/
theorem error_detect_trace_order (d : Device) (sdo : Nat → Nat)
    (hLE : d.LE ≠ -1) (hOE : d.iOE ≠ -1) (hSDO : d.SDO ≠ -1) :
    pin_events (error_detect d sdo).2.trace =
      (send d 0xFFFF).trace
        ++ pin_events (switch_mode d ERROR_DETECT_MODE_PATTERN).trace
        ++ [Event.delayMicroseconds 3]
        ++ [ Event.digitalWrite d.CLK 0, Event.digitalWrite d.iOE 0, Event.digitalWrite d.LE 0,
             Event.digitalWrite d.CLK 1, Event.digitalWrite d.iOE 0, Event.digitalWrite d.LE 0,
             Event.digitalWrite d.CLK 0, Event.digitalWrite d.iOE 1, Event.digitalWrite d.LE 0,
             Event.digitalWrite d.CLK 0 ]
        ++ [Event.pinMode d.SDO PinMode.INPUT, Event.digitalWrite d.SDI LOW]
        ++ (List.range 16).flatMap (fun _ =>
              [ Event.digitalRead d.SDO,
                Event.digitalWrite d.CLK HIGH,
                Event.digitalWrite d.CLK LOW ])
        ++ [Event.pinMode d.SDO PinMode.OUTPUT]
        ++ pin_events (normal_mode d).trace
    ∧ (2 : Nat) ≤ 3
    ∧ (do_clk_ioe_le d ERROR_DETECT_READY).trace =
        [ Event.digitalWrite d.CLK 0, Event.digitalWrite d.iOE 0, Event.digitalWrite d.LE 0,
          Event.digitalWrite d.CLK 1, Event.digitalWrite d.iOE 0, Event.digitalWrite d.LE 0,
          Event.digitalWrite d.CLK 0, Event.digitalWrite d.iOE 1, Event.digitalWrite d.LE 0,
          Event.digitalWrite d.CLK 0 ]
    ∧ (normal_mode d).trace = (switch_mode d NORMAL_MODE_PATTERN).trace
    ∧ writes (normal_mode d).trace =
        frame_writes d transition_frames ++ [(d.CLK, 0)]
          ++ frame_writes d [(0, 1, 0), (1, 1, 0), (0, 1, 0), (1, 1, 0)] ++ [(d.CLK, 0)] := by
  have hready : (do_clk_ioe_le d ERROR_DETECT_READY).trace =
      [ Event.digitalWrite d.CLK 0, Event.digitalWrite d.iOE 0, Event.digitalWrite d.LE 0,
        Event.digitalWrite d.CLK 1, Event.digitalWrite d.iOE 0, Event.digitalWrite d.LE 0,
        Event.digitalWrite d.CLK 0, Event.digitalWrite d.iOE 1, Event.digitalWrite d.LE 0,
        Event.digitalWrite d.CLK 0 ] := by
    simp [do_clk_ioe_le, ERROR_DETECT_READY, play_rows, LOW, HIGH]
  have hmid : pin_events (readback d sdo).2 =
      (List.range 16).flatMap (fun _ =>
        [ Event.digitalRead d.SDO, Event.digitalWrite d.CLK HIGH,
          Event.digitalWrite d.CLK LOW ]) := by
    unfold readback
    rw [readback_fold_trace]
    simp [range16, pin_events, List.flatMap_cons]
  have hpost : pin_events ([Event.serial]
        ++ (if d.debugging then
              [Event.serial, Event.serial, Event.serial, Event.serial, Event.serial]
            else [])
        ++ [Event.pinMode d.SDO PinMode.OUTPUT]
        ++ (normal_mode d).trace) =
      [Event.pinMode d.SDO PinMode.OUTPUT] ++ pin_events (normal_mode d).trace := by
    by_cases hdbg : d.debugging = true <;> simp [hdbg, pin_events]
  refine ⟨?_, by decide, hready, normal_mode_trace d hLE hOE, ?_⟩
  · rw [(error_detect_trace d sdo hLE hOE hSDO).2.2]
    simp only [pin_events_append, pin_events_debug_warn, pin_events_send, hmid, hpost, hready,
      List.append_nil, List.append_assoc]
    simp [pin_events]
  · rw [normal_mode_trace d hLE hOE]
    have h := (writes_switch_mode d NORMAL_MODE_PATTERN)
    rw [h]
    have ht : frames SWITCH_MODE_PATTERN = transition_frames := by decide
    have hn : frames NORMAL_MODE_PATTERN = [(0, 1, 0), (1, 1, 0), (0, 1, 0), (1, 1, 0)] := by
      decide
    rw [ht, hn]
    rfl

/-- Witness for C15 on the five-wire device. -/
theorem error_detect_trace_order_witness :
    (normal_mode five_wire).trace = (switch_mode five_wire NORMAL_MODE_PATTERN).trace
    ∧ (do_clk_ioe_le five_wire ERROR_DETECT_READY).trace =
        [ Event.digitalWrite 3 0, Event.digitalWrite 5 0, Event.digitalWrite 4 0,
          Event.digitalWrite 3 1, Event.digitalWrite 5 0, Event.digitalWrite 4 0,
          Event.digitalWrite 3 0, Event.digitalWrite 5 1, Event.digitalWrite 4 0,
          Event.digitalWrite 3 0 ] :=
  ⟨(error_detect_trace_order five_wire alternating (by decide) (by decide) (by decide)).2.2.2.1,
   (error_detect_trace_order five_wire alternating (by decide) (by decide) (by decide)).2.2.1⟩

/-- C16. The trace of `reset` is the concatenation, in this order, of: the
`pinMode(iOE, OUTPUT)` made when `pwm` is set; the trace of `normal_mode()`,
present exactly when iOE and LE are wired; the trace of `off()`, present
exactly when iOE is wired; data-out set to input, present exactly when data-out
is wired; the trace of `all(LOW)`; the trace of `config(1, 1, 127)`, present
exactly when iOE and LE are wired; the trace of `on()`, present exactly when
iOE is wired.  So with iOE wired the write of HIGH to iOE (outputs disabled)
comes before the trace of `all(LOW)`, which comes before the final write of
LOW to iOE. -/
theorem reset_step_order (d : Device) :
    (reset d).trace =
      (if d.pwm then [Event.pinMode d.iOE PinMode.OUTPUT] else [])
        ++ (if d.iOE ≠ -1 ∧ d.LE ≠ -1 then (normal_mode d).trace else [])
        ++ (if d.iOE ≠ -1 then (off d).trace else [])
        ++ (if d.SDO ≠ -1 then [Event.pinMode d.SDO PinMode.INPUT] else [])
        ++ (all d LOW).trace
        ++ (if d.iOE ≠ -1 ∧ d.LE ≠ -1 then (config d 1 1 127).trace else [])
        ++ (if d.iOE ≠ -1 then («on» d).trace else [])
    ∧ (d.iOE ≠ -1 →
        ∃ a b c, (reset d).trace =
          a ++ [Event.digitalWrite d.iOE HIGH] ++ b ++ (all d LOW).trace ++ c
            ++ [Event.digitalWrite d.iOE LOW]) := by
  refine ⟨reset_trace d, ?_⟩
  intro hOE
  rw [reset_trace, on_trace d hOE, off_trace d hOE]
  simp only [if_pos hOE]
  refine ⟨(if d.pwm then [Event.pinMode d.iOE PinMode.OUTPUT] else [])
        ++ (if d.iOE ≠ -1 ∧ d.LE ≠ -1 then (normal_mode d).trace else [])
        ++ ((debug_warn d).trace
              ++ (if d.pwm then [Event.pinMode d.iOE PinMode.OUTPUT] else [])),
      (if d.SDO ≠ -1 then [Event.pinMode d.SDO PinMode.INPUT] else []),
      (if d.iOE ≠ -1 ∧ d.LE ≠ -1 then (config d 1 1 127).trace else [])
        ++ ((debug_warn d).trace
              ++ (if d.pwm then [Event.pinMode d.iOE PinMode.OUTPUT] else [])), ?_⟩
  simp only [List.append_assoc]

/-- Witness for C16: on the device with iOE but neither LE nor data-out the
trace of `reset` is `off()`, `all(LOW)`, `on()`. -/
theorem reset_step_order_witness :
    (reset oe_only).trace = (off oe_only).trace ++ (all oe_only LOW).trace ++ («on» oe_only).trace
    ∧ ∃ a b c, (reset oe_only).trace =
          a ++ [Event.digitalWrite oe_only.iOE HIGH] ++ b ++ (all oe_only LOW).trace ++ c
            ++ [Event.digitalWrite oe_only.iOE LOW] :=
  ⟨by decide, (reset_step_order oe_only).2 (by decide)⟩

/-- C19. With the required pin absent the operation leaves the device record
unchanged (it returns the same handle) and its trace holds no pin write,
pin-direction change, pin read, duty-cycle write or delay: `latch_pulse` without
LE, `on` and `off` without iOE, `normal_mode` and `config` when LE or iOE is
absent.  With the pin wired, `latch_pulse` makes exactly the calls LE high, LE
low; the only write of `on` is LOW to iOE and the only write of `off` is HIGH
to iOE. -/
theorem unwired_noop (d : Device) :
    (d.LE = -1 → (latch_pulse d).dev = d ∧ pin_events (latch_pulse d).trace = [])
    ∧ (d.iOE = -1 →
        («on» d).dev = d ∧ pin_events («on» d).trace = []
        ∧ (off d).dev = d ∧ pin_events (off d).trace = [])
    ∧ (d.LE = -1 ∨ d.iOE = -1 →
        (normal_mode d).dev = d ∧ pin_events (normal_mode d).trace = []
        ∧ ∀ c b g, (config d c b g).dev = d ∧ pin_events (config d c b g).trace = [])
    ∧ (d.LE ≠ -1 →
        (latch_pulse d).dev = d
        ∧ (latch_pulse d).trace = [Event.digitalWrite d.LE HIGH, Event.digitalWrite d.LE LOW])
    ∧ (d.iOE ≠ -1 →
        («on» d).dev = d ∧ writes («on» d).trace = [(d.iOE, LOW)]
        ∧ (off d).dev = d ∧ writes (off d).trace = [(d.iOE, HIGH)]) := by
  refine ⟨?_, ?_, ?_, ?_, ?_⟩
  · intro h
    unfold latch_pulse
    rw [if_neg (by simp [h])]
    exact ⟨debug_warn_dev d, pin_events_debug_warn d⟩
  · intro h
    unfold «on» off
    rw [if_neg (by simp [h]), if_neg (by simp [h])]
    exact ⟨debug_warn_dev d, pin_events_debug_warn d, debug_warn_dev d, pin_events_debug_warn d⟩
  · intro h
    unfold normal_mode config
    rw [if_pos h]
    refine ⟨debug_warn_dev d, pin_events_debug_warn d, fun c b g => ?_⟩
    rw [if_pos h]
    exact ⟨debug_warn_dev d, pin_events_debug_warn d⟩
  · intro h
    exact ⟨latch_pulse_dev d, latch_pulse_trace d h⟩
  · intro h
    refine ⟨on_dev d, ?_, off_dev d, ?_⟩
    · rw [on_trace d h]
      simp only [writes_append, writes_debug_warn]
      by_cases hp : d.pwm = true <;> simp [hp, writes]
    · rw [off_trace d h]
      simp only [writes_append, writes_debug_warn]
      by_cases hp : d.pwm = true <;> simp [hp, writes]

/-- Witness for C19: the two-wire device for the absent pins, the five-wire
device for the wired ones. -/
theorem unwired_noop_witness :
    pin_events (latch_pulse (attach_sdi_clk uno_timer TLC5926 2 3).dev).trace = []
    ∧ pin_events («on» (attach_sdi_clk uno_timer TLC5926 2 3).dev).trace = []
    ∧ pin_events (normal_mode oe_only).trace = []
    ∧ (latch_pulse five_wire).trace = [Event.digitalWrite 4 HIGH, Event.digitalWrite 4 LOW]
    ∧ writes (off five_wire).trace = [(5, HIGH)] :=
  ⟨((unwired_noop (attach_sdi_clk uno_timer TLC5926 2 3).dev).1 (by decide)).2,
   ((unwired_noop (attach_sdi_clk uno_timer TLC5926 2 3).dev).2.1 (by decide)).2.1,
   ((unwired_noop oe_only).2.2.1 (by decide)).2.1,
   ((unwired_noop five_wire).2.2.2.1 (by decide)).2,
   ((unwired_noop five_wire).2.2.2.2 (by decide)).2.2.2⟩

/-! ## Filling the chain and sending single bits -/

theorem flatMap_const_range {α : Type} (n : Nat) (l : List α) :
    (List.range n).flatMap (fun _ => l) = (List.replicate n l).flatten := by
  induction n with
  | zero => rfl
  | succ n ih =>
    rw [List.range_succ, List.flatMap_append, ih, List.replicate_succ']
    simp

theorem flatten_replicate_mul {α : Type} (n m : Nat) (l : List α) :
    (List.replicate n (List.replicate m l).flatten).flatten = (List.replicate (m * n) l).flatten := by
  induction n with
  | zero => simp
  | succ n ih =>
    rw [List.replicate_succ, List.flatten_cons, ih, Nat.mul_succ, Nat.add_comm,
      List.replicate_add, List.flatten_append]

/-- The trace of `all`: the trace of `shift` of the fill word, once per chip,
then the latch pulse when LE is wired. -/
theorem all_trace (d : Device) (hilo : Int) :
    (all d hilo).trace =
      (List.replicate d.ct.toNat (shift d (if hilo ≠ 0 then 0xFFFF else 0)).trace).flatten
        ++ (if d.LE ≠ -1 then [Event.digitalWrite d.LE HIGH, Event.digitalWrite d.LE LOW]
            else []) := by
  unfold all
  have hkeep : ∀ f ∈ List.replicate d.ct.toNat
        (fun d1 => shift d1 (if hilo ≠ 0 then 0xFFFF else 0))
        ++ [fun d1 => if d1.LE ≠ -1 then latch_pulse d1 else skip d1],
      ∀ x, (f x).dev = x := by
    intro f hf x
    simp only [List.mem_append, List.mem_replicate, List.mem_singleton] at hf
    rcases hf with ⟨_, rfl⟩ | rfl
    · simp
    · beta_reduce; split <;> simp
  rw [(run_of_keep _ d hkeep).2, List.flatMap_append, List.flatMap_replicate]
  by_cases h : d.LE = -1
  · simp [h]
  · simp [h, latch_pulse_trace d h]

/-- C17. For every device with chain length `n` and every level, the trace of
`all(level)` is exactly `16 * n` groups "data level on SDI, CLK high, CLK
low", the data level being 1 throughout when the level is nonzero and 0
throughout when it is zero, followed by the latch pulse (LE high, LE low) when
LE is wired and by nothing when LE is absent.  The device record is unchanged. -/
theorem all_fills_chain (d : Device) (n : Nat) (hct : d.ct = (n : Int)) (hilo : Int) :
    (all d hilo).trace =
      (List.replicate (16 * n)
          [ Event.digitalWrite d.SDI (if hilo ≠ 0 then 1 else 0),
            Event.digitalWrite d.CLK HIGH,
            Event.digitalWrite d.CLK LOW ]).flatten
        ++ (if d.LE ≠ -1 then [Event.digitalWrite d.LE HIGH, Event.digitalWrite d.LE LOW]
            else [])
    ∧ (d.LE = -1 → (all d hilo).trace =
        (List.replicate (16 * n)
          [ Event.digitalWrite d.SDI (if hilo ≠ 0 then 1 else 0),
            Event.digitalWrite d.CLK HIGH,
            Event.digitalWrite d.CLK LOW ]).flatten)
    ∧ (all d hilo).dev = d := by
  have hn : d.ct.toNat = n := by rw [hct]; simp
  have key : (all d hilo).trace =
      (List.replicate (16 * n)
          [ Event.digitalWrite d.SDI (if hilo ≠ 0 then 1 else 0),
            Event.digitalWrite d.CLK HIGH,
            Event.digitalWrite d.CLK LOW ]).flatten
        ++ (if d.LE ≠ -1 then [Event.digitalWrite d.LE HIGH, Event.digitalWrite d.LE LOW]
            else []) := by
    rw [all_trace, hn]
    by_cases h0 : hilo = 0
    · simp only [h0, ne_eq, not_true_eq_false, if_false]
      rw [shift_zeros, flatMap_const_range, flatten_replicate_mul]
    · simp only [h0, ne_eq, not_false_eq_true, if_true]
      rw [shift_ones, flatMap_const_range, flatten_replicate_mul]
  refine ⟨key, ?_, all_dev d hilo⟩
  intro h
  rw [key]
  simp [h]

/-- Witness for C17: a chain of two chips without LE, filled with ones. -/
theorem all_fills_chain_witness :
    (all oe_only HIGH).trace =
      (List.replicate 32
          [ Event.digitalWrite 2 1, Event.digitalWrite 3 HIGH, Event.digitalWrite 3 LOW ]).flatten
    ∧ (all oe_only HIGH).dev = oe_only :=
  ⟨(all_fills_chain oe_only 2 (by decide) HIGH).2.1 (by decide),
   (all_fills_chain oe_only 2 (by decide) HIGH).2.2⟩

/-- Bits 0..15 of an argument survive the conversion to `short int`. -/
theorem testBit_to_short (b : Int) (k : Nat) (hlo : -32768 ≤ b) (hhi : b < 65536) (hk : k < 16) :
    (to_short b).testBit k = b.testBit k := by
  by_cases hb : b < 32768
  · have : to_short b = b := by unfold to_short; omega
    rw [this]
  · obtain ⟨m, rfl⟩ : ∃ m : Nat, b = (m : Int) := ⟨b.toNat, by omega⟩
    have hm : m < 2 ^ 16 := by omega
    have hs : to_short (m : Int) = Int.negSucc (2 ^ 16 - (m + 1)) := by
      unfold to_short
      rw [Int.negSucc_eq]
      omega
    rw [hs]
    show (!(Nat.testBit (2 ^ 16 - (m + 1)) k)) = Nat.testBit m k
    rw [Nat.testBit_two_pow_sub_succ hm]
    simp [hk]

/-- The trace of `send_bits` for a count given as a natural number. -/
theorem send_bits_trace (d : Device) (count : Nat) (bits delay_between : Int) :
    (send_bits d count bits delay_between).trace =
      (List.range count).reverse.flatMap (fun k =>
        [ Event.digitalWrite d.SDI (if (to_short bits).testBit k then 1 else 0),
          Event.digitalWrite d.CLK HIGH,
          Event.digitalWrite d.CLK LOW ]
        ++ (if delay_between ≠ 0 then
              (if d.LE ≠ -1 then [Event.digitalWrite d.LE HIGH, Event.digitalWrite d.LE LOW]
               else [])
              ++ [Event.delay (delay_between % 2 ^ 32).toNat]
            else []))
      ++ (if delay_between = 0 ∧ d.LE ≠ -1 then
            [Event.digitalWrite d.LE HIGH, Event.digitalWrite d.LE LOW]
          else [])
    ∧ (send_bits d count bits delay_between).dev = d := by
  unfold send_bits
  have hstep : ∀ (k : Nat) (x : Device),
      (run [ fun d2 => emit [ Event.digitalWrite d2.SDI
                                (if (to_short bits).testBit k then 1 else 0),
                              Event.digitalWrite d2.CLK HIGH,
                              Event.digitalWrite d2.CLK LOW ] d2,
             fun d2 => if delay_between ≠ 0 then
                         run [ fun d3 => if d3.LE ≠ -1 then latch_pulse d3 else skip d3,
                               emit [Event.delay (delay_between % 2 ^ 32).toNat] ] d2
                       else skip d2 ] x).dev = x
      ∧ (run [ fun d2 => emit [ Event.digitalWrite d2.SDI
                                (if (to_short bits).testBit k then 1 else 0),
                              Event.digitalWrite d2.CLK HIGH,
                              Event.digitalWrite d2.CLK LOW ] d2,
             fun d2 => if delay_between ≠ 0 then
                         run [ fun d3 => if d3.LE ≠ -1 then latch_pulse d3 else skip d3,
                               emit [Event.delay (delay_between % 2 ^ 32).toNat] ] d2
                       else skip d2 ] x).trace =
        [ Event.digitalWrite x.SDI (if (to_short bits).testBit k then 1 else 0),
          Event.digitalWrite x.CLK HIGH,
          Event.digitalWrite x.CLK LOW ]
        ++ (if delay_between ≠ 0 then
              (if x.LE ≠ -1 then [Event.digitalWrite x.LE HIGH, Event.digitalWrite x.LE LOW]
               else [])
              ++ [Event.delay (delay_between % 2 ^ 32).toNat]
            else []) := by
    intro k x
    have hinner : ∀ y : Device,
        (run [ fun d3 => if d3.LE ≠ -1 then latch_pulse d3 else skip d3,
               emit [Event.delay (delay_between % 2 ^ 32).toNat] ] y).dev = y
        ∧ (run [ fun d3 => if d3.LE ≠ -1 then latch_pulse d3 else skip d3,
               emit [Event.delay (delay_between % 2 ^ 32).toNat] ] y).trace =
          (if y.LE ≠ -1 then [Event.digitalWrite y.LE HIGH, Event.digitalWrite y.LE LOW]
           else [])
          ++ [Event.delay (delay_between % 2 ^ 32).toNat] := by
      intro y
      have h := run_of_keep
        [ fun d3 => if d3.LE ≠ -1 then latch_pulse d3 else skip d3,
          emit [Event.delay (delay_between % 2 ^ 32).toNat] ] y
        (keep_of_mem_cons (keep_if_step _ _ latch_pulse_dev)
          (keep_of_mem_cons (by simp) keep_nil))
      refine ⟨h.1, ?_⟩
      rw [h.2]
      by_cases hl : y.LE = -1
      · simp [hl]
      · simp [hl, latch_pulse_trace y hl]
    have h := run_of_keep
      [ fun d2 => emit [ Event.digitalWrite d2.SDI
                           (if (to_short bits).testBit k then 1 else 0),
                         Event.digitalWrite d2.CLK HIGH,
                         Event.digitalWrite d2.CLK LOW ] d2,
        fun d2 => if delay_between ≠ 0 then
                    run [ fun d3 => if d3.LE ≠ -1 then latch_pulse d3 else skip d3,
                          emit [Event.delay (delay_between % 2 ^ 32).toNat] ] d2
                  else skip d2 ] x
      (keep_of_mem_cons (by simp)
        (keep_of_mem_cons (keep_if_step _ _ (fun y => (hinner y).1)) keep_nil))
    refine ⟨h.1, ?_⟩
    rw [h.2]
    by_cases hd : delay_between = 0
    · simp [hd]
    · simp only [List.flatMap_cons, List.flatMap_nil, List.append_nil, emit_trace,
        if_pos hd, (hinner x).2]
  have hkeep : ∀ f ∈ (List.range (count : Int).toNat).reverse.map (fun k => fun d1 =>
          run [ fun d2 => emit [ Event.digitalWrite d2.SDI
                                   (if (to_short bits).testBit k then 1 else 0),
                                 Event.digitalWrite d2.CLK HIGH,
                                 Event.digitalWrite d2.CLK LOW ] d2,
                fun d2 => if delay_between ≠ 0 then
                            run [ fun d3 => if d3.LE ≠ -1 then latch_pulse d3 else skip d3,
                                  emit [Event.delay (delay_between % 2 ^ 32).toNat] ] d2
                          else skip d2 ] d1)
        ++ [fun d1 => if delay_between = 0 ∧ d1.LE ≠ -1 then latch_pulse d1 else skip d1],
      ∀ x, (f x).dev = x := by
    intro f hf x
    simp only [List.mem_append, List.mem_map, List.mem_singleton] at hf
    rcases hf with ⟨k, _, rfl⟩ | rfl
    · exact (hstep k x).1
    · beta_reduce; split <;> simp
  have h := run_of_keep _ d hkeep
  refine ⟨?_, h.1⟩
  rw [h.2, List.flatMap_append, List.flatMap_map]
  have hcount : ((count : Int)).toNat = count := by simp
  rw [hcount]
  congr 1
  · apply List.flatMap_congr
    intro k _
    exact (hstep k d).2
  · by_cases hl : d.LE = -1
    · simp [hl]
    · by_cases hd : delay_between = 0
      · simp [hl, hd, latch_pulse_trace d hl]
      · simp [hl, hd]

/-- C18. For every count up to 16 and every 16-bit value `bits` (signed or
unsigned), the trace of `send_bits(count, bits, delay_between)` consists of
`count` groups "data level on SDI, CLK high, CLK low", the data levels being
bit `count - 1` of `bits` first down to bit 0 last.  When `delay_between` is 0
the groups are followed by one latch pulse if LE is wired and there is no
delay; when `delay_between` is nonzero each group is followed by a latch pulse
(if LE is wired) and a delay, and nothing follows the last group.  The delay is
the argument converted to `unsigned long`, which is `delay_between` itself when
that is positive.  The device record is unchanged. -/
theorem send_bits_order (d : Device) (count : Nat) (bits delay_between : Int)
    (hc : count ≤ 16) (hlo : -32768 ≤ bits) (hhi : bits < 65536) :
    (delay_between = 0 →
      (send_bits d count bits delay_between).trace =
        (List.range count).reverse.flatMap (fun k =>
          [ Event.digitalWrite d.SDI (if bits.testBit k then 1 else 0),
            Event.digitalWrite d.CLK HIGH,
            Event.digitalWrite d.CLK LOW ])
        ++ (if d.LE ≠ -1 then [Event.digitalWrite d.LE HIGH, Event.digitalWrite d.LE LOW]
            else []))
    ∧ (delay_between ≠ 0 →
      (send_bits d count bits delay_between).trace =
        (List.range count).reverse.flatMap (fun k =>
          [ Event.digitalWrite d.SDI (if bits.testBit k then 1 else 0),
            Event.digitalWrite d.CLK HIGH,
            Event.digitalWrite d.CLK LOW ]
          ++ (if d.LE ≠ -1 then [Event.digitalWrite d.LE HIGH, Event.digitalWrite d.LE LOW]
              else [])
          ++ [Event.delay (delay_between % 2 ^ 32).toNat]))
    ∧ (0 < delay_between → delay_between < 2 ^ 32 →
        (((delay_between % 2 ^ 32).toNat : Nat) : Int) = delay_between)
    ∧ (send_bits d count bits delay_between).dev = d := by
  have hbit : ∀ k ∈ (List.range count).reverse, (to_short bits).testBit k = bits.testBit k := by
    intro k hk
    have hk2 : k < count := by simpa using hk
    exact testBit_to_short bits k hlo hhi (by omega)
  obtain ⟨ht, hd⟩ := send_bits_trace d count bits delay_between
  refine ⟨?_, ?_, ?_, hd⟩
  · intro h0
    rw [ht]
    simp only [h0, ne_eq, not_true_eq_false, if_false, List.append_nil, true_and]
    congr 1
    apply List.flatMap_congr
    intro k hk
    rw [hbit k hk]
  · intro h0
    rw [ht]
    have hlast : (if delay_between = 0 ∧ d.LE ≠ -1 then
            [Event.digitalWrite d.LE HIGH, Event.digitalWrite d.LE LOW]
          else []) = [] := by
      rw [if_neg (fun h => h0 h.1)]
    rw [hlast, List.append_nil]
    apply List.flatMap_congr
    intro k hk
    rw [hbit k hk, if_pos h0, List.append_assoc]
  · intro h1 h2
    have h3 : delay_between % 2 ^ 32 = delay_between :=
      Int.emod_eq_of_lt (le_of_lt h1) h2
    rw [h3]
    exact Int.toNat_of_nonneg (le_of_lt h1)

/-- Witness for C18: four bits of `0x8` without delay, and two bits of `0x1`
with a delay of 100, on the five-wire device. -/
theorem send_bits_order_witness :
    (send_bits five_wire 4 0x8 0).trace =
      [ Event.digitalWrite 2 1, Event.digitalWrite 3 HIGH, Event.digitalWrite 3 LOW,
        Event.digitalWrite 2 0, Event.digitalWrite 3 HIGH, Event.digitalWrite 3 LOW,
        Event.digitalWrite 2 0, Event.digitalWrite 3 HIGH, Event.digitalWrite 3 LOW,
        Event.digitalWrite 2 0, Event.digitalWrite 3 HIGH, Event.digitalWrite 3 LOW,
        Event.digitalWrite 4 HIGH, Event.digitalWrite 4 LOW ]
    ∧ (send_bits five_wire 2 0x1 100).trace =
      [ Event.digitalWrite 2 0, Event.digitalWrite 3 HIGH, Event.digitalWrite 3 LOW,
        Event.digitalWrite 4 HIGH, Event.digitalWrite 4 LOW, Event.delay 100,
        Event.digitalWrite 2 1, Event.digitalWrite 3 HIGH, Event.digitalWrite 3 LOW,
        Event.digitalWrite 4 HIGH, Event.digitalWrite 4 LOW, Event.delay 100 ] :=
  ⟨((send_bits_order five_wire 4 0x8 0 (by decide) (by decide) (by decide)).1 rfl).trans
      (by decide),
   ((send_bits_order five_wire 2 0x1 100 (by decide) (by decide) (by decide)).2.1
      (by decide)).trans (by decide)⟩

/-! ## Latch-enable idles low -/

theorem level_after_append (v p : Int) (a b : List Event) :
    level_after v p (a ++ b) = level_after (level_after v p a) p b := by
  unfold level_after last_write
  rw [writes_to_append, List.getLast?_append]
  cases (writes_to p b).getLast? <;> simp

theorem idle_append (p : Int) (a b : List Event)
    (ha : level_after LOW p a = LOW) (hb : level_after LOW p b = LOW) :
    level_after LOW p (a ++ b) = LOW := by
  rw [level_after_append, ha, hb]

theorem idle_of_no_write (p : Int) (t : List Event) (h : writes_to p t = []) :
    level_after LOW p t = LOW := by
  simp [level_after, last_write, h]

theorem idle_nil (p : Int) : level_after LOW p [] = LOW := rfl

theorem idle_flatMap {α : Type} (p : Int) (l : List α) (f : α → List Event)
    (h : ∀ x ∈ l, level_after LOW p (f x) = LOW) :
    level_after LOW p (l.flatMap f) = LOW := by
  induction l with
  | nil => rfl
  | cons x xs ih =>
    rw [List.flatMap_cons]
    exact idle_append p _ _ (h x (List.mem_cons_self _ _))
      (ih (fun y hy => h y (List.mem_cons_of_mem _ hy)))

/-- A block of steps that leave the device alone and each leave pin `p` low
(or unwritten) leaves it low. -/
theorem idle_run (p : Int) (steps : List (Device → Outcome)) (d : Device)
    (hkeep : ∀ f ∈ steps, ∀ x, (f x).dev = x)
    (h : ∀ f ∈ steps, level_after LOW p (f d).trace = LOW) :
    level_after LOW p (run steps d).trace = LOW := by
  rw [(run_of_keep steps d hkeep).2]
  exact idle_flatMap p steps _ h

theorem idle_cons {p : Int} {d : Device} {f : Device → Outcome} {fs : List (Device → Outcome)}
    (hf : level_after LOW p (f d).trace = LOW)
    (hfs : ∀ g ∈ fs, level_after LOW p (g d).trace = LOW) :
    ∀ g ∈ f :: fs, level_after LOW p (g d).trace = LOW := by
  intro g hg
  rcases List.mem_cons.1 hg with rfl | h
  · exact hf
  · exact hfs g h

theorem idle_none {p : Int} {d : Device} :
    ∀ g ∈ ([] : List (Device → Outcome)), level_after LOW p (g d).trace = LOW := by
  intro g hg
  cases hg

theorem idle_if {p : Int} (c : Device → Prop) [DecidablePred c] (f : Device → Outcome)
    (d : Device) (hf : level_after LOW p (f d).trace = LOW) :
    level_after LOW p ((fun d1 : Device => if c d1 then f d1 else skip d1) d).trace = LOW := by
  beta_reduce
  split
  · exact hf
  · rfl

theorem idle_debug_warn (p : Int) (d : Device) :
    level_after LOW p (debug_warn d).trace = LOW :=
  idle_of_no_write p _ (writes_to_debug_warn p d)

theorem idle_latch_pulse (p : Int) (d : Device) :
    level_after LOW p (latch_pulse d).trace = LOW := by
  unfold latch_pulse
  split
  · by_cases h : d.LE = p <;> simp [h, level_after, last_write, writes_to]
  · exact idle_debug_warn p d

theorem idle_shiftOut (p dp cp : Int) (o : BitOrder) (v : Nat) (h1 : p ≠ dp) (h2 : p ≠ cp) :
    level_after LOW p (shiftOut dp cp o v) = LOW := by
  apply idle_of_no_write
  simp [shiftOut, range8, writes_to, Ne.symm h1, Ne.symm h2]

theorem idle_shift (p : Int) (d : Device) (W : Nat) (h1 : p ≠ d.SDI) (h2 : p ≠ d.CLK) :
    level_after LOW p (shift d W).trace = LOW := by
  unfold shift
  simp only [emit_trace]
  exact idle_append p _ _ (idle_shiftOut p _ _ _ _ h1 h2) (idle_shiftOut p _ _ _ _ h1 h2)

theorem idle_send (p : Int) (d : Device) (W : Nat) (h1 : p ≠ d.SDI) (h2 : p ≠ d.CLK) :
    level_after LOW p (send d W).trace = LOW := by
  unfold send
  simp only [andThen_trace, shift_dev]
  refine idle_append p _ _ (idle_shift p d W h1 h2) ?_
  split
  · exact idle_latch_pulse p d
  · rfl

theorem idle_pwm_step (p : Int) (d : Device) :
    level_after LOW p ((fun d1 : Device =>
        if d1.pwm then emit [Event.pinMode d1.iOE PinMode.OUTPUT] d1 else skip d1) d).trace
      = LOW := by
  beta_reduce
  split <;> rfl

theorem idle_on (p : Int) (d : Device) (h3 : p ≠ d.iOE) :
    level_after LOW p («on» d).trace = LOW := by
  by_cases h : d.iOE = -1
  · unfold «on»
    rw [if_neg (by simp [h])]
    exact idle_debug_warn p d
  · rw [on_trace d h]
    refine idle_append p _ _ (idle_append p _ _ (idle_debug_warn p d) ?_) ?_
    · split <;> rfl
    · simp [level_after, last_write, writes_to, Ne.symm h3]

theorem idle_off (p : Int) (d : Device) (h3 : p ≠ d.iOE) :
    level_after LOW p (off d).trace = LOW := by
  by_cases h : d.iOE = -1
  · unfold off
    rw [if_neg (by simp [h])]
    exact idle_debug_warn p d
  · rw [off_trace d h]
    refine idle_append p _ _ (idle_append p _ _ (idle_debug_warn p d) ?_) ?_
    · split <;> rfl
    · simp [level_after, last_write, writes_to, Ne.symm h3]

/-- Playing any of the five tables leaves LE low: the last frame of each table
holds LE low, and the closing clock write does not touch LE. -/
theorem idle_do_clk_ioe_le (d : Device) (h2 : d.LE ≠ d.CLK) (h3 : d.LE ≠ d.iOE)
    (T : List (Int × Int × Int))
    (hT : T ∈ [ NORMAL_MODE_PATTERN, SWITCH_MODE_PATTERN, ERROR_DETECT_MODE_PATTERN,
                ERROR_DETECT_READY, CONFIGURATION_MODE_PATTERN ]) :
    level_after LOW d.LE (do_clk_ioe_le d T).trace = LOW := by
  simp only [List.mem_cons, List.mem_singleton, List.not_mem_nil, or_false] at hT
  rcases hT with rfl | rfl | rfl | rfl | rfl <;>
    simp [do_clk_ioe_le, play_rows, NORMAL_MODE_PATTERN, SWITCH_MODE_PATTERN,
      ERROR_DETECT_MODE_PATTERN, ERROR_DETECT_READY, CONFIGURATION_MODE_PATTERN,
      level_after, last_write, writes_to, LOW, HIGH, Ne.symm h2, Ne.symm h3]

theorem idle_switch_mode (d : Device) (h2 : d.LE ≠ d.CLK) (h3 : d.LE ≠ d.iOE)
    (T : List (Int × Int × Int))
    (hT : T ∈ [ NORMAL_MODE_PATTERN, SWITCH_MODE_PATTERN, ERROR_DETECT_MODE_PATTERN,
                ERROR_DETECT_READY, CONFIGURATION_MODE_PATTERN ]) :
    level_after LOW d.LE (switch_mode d T).trace = LOW := by
  rw [switch_mode_trace]
  refine idle_append _ _ _ (idle_append _ _ _ (idle_append _ _ _ (idle_append _ _ _
    (idle_debug_warn _ d) ?_) (idle_do_clk_ioe_le d h2 h3 _ (by simp)))
    (idle_debug_warn _ d)) (idle_do_clk_ioe_le d h2 h3 T hT)
  split <;> rfl

theorem idle_normal_mode (d : Device) (h2 : d.LE ≠ d.CLK) (h3 : d.LE ≠ d.iOE) :
    level_after LOW d.LE (normal_mode d).trace = LOW := by
  unfold normal_mode
  split
  · exact idle_debug_warn _ d
  · exact idle_switch_mode d h2 h3 _ (by simp)

theorem idle_config (d : Device) (h1 : d.LE ≠ d.SDI) (h2 : d.LE ≠ d.CLK) (h3 : d.LE ≠ d.iOE)
    (c b g : Int) : level_after LOW d.LE (config d c b g).trace = LOW := by
  unfold config
  split
  · exact idle_debug_warn _ d
  · refine idle_run _ _ d
      (keep_of_mem_cons (by simp) (keep_of_mem_cons (by simp)
        (keep_of_mem_cons (by simp) (keep_of_mem_cons (by simp)
        (keep_of_mem_cons (by simp) (keep_of_mem_cons (by simp) keep_nil))))))
      (idle_cons (idle_send _ d _ h1 h2)
        (idle_cons (idle_switch_mode d h2 h3 _ (by simp))
        (idle_cons (idle_shiftOut _ _ _ _ _ h1 h2)
        (idle_cons (idle_shiftOut _ _ _ _ _ h1 h2)
        (idle_cons (idle_latch_pulse _ d)
        (idle_cons (idle_normal_mode d h2 h3) idle_none))))))

theorem idle_all (p : Int) (d : Device) (hilo : Int) (h1 : p ≠ d.SDI) (h2 : p ≠ d.CLK) :
    level_after LOW p (all d hilo).trace = LOW := by
  rw [all_trace]
  refine idle_append p _ _ ?_ ?_
  · rw [← List.flatMap_replicate (fun t : List Event => t)]
    exact idle_flatMap p _ _ (fun t ht => by
      rw [(List.mem_replicate.1 ht).2]
      exact idle_shift p d _ h1 h2)
  · by_cases h : d.LE = -1
    · simp [h, idle_nil]
    · have := idle_latch_pulse p d
      rw [latch_pulse_trace d h] at this
      simpa [h] using this

theorem idle_send_bits (d : Device) (count bits delay_between : Int)
    (h1 : d.LE ≠ d.SDI) (h2 : d.LE ≠ d.CLK) :
    level_after LOW d.LE (send_bits d count bits delay_between).trace = LOW := by
  have hcount : send_bits d count bits delay_between
      = send_bits d ((count.toNat : Nat) : Int) bits delay_between := by
    unfold send_bits
    rw [Int.toNat_ofNat]
  rw [hcount, (send_bits_trace d count.toNat bits delay_between).1]
  have hpulse : level_after LOW d.LE
      (if d.LE ≠ -1 then [Event.digitalWrite d.LE HIGH, Event.digitalWrite d.LE LOW] else [])
      = LOW := by
    split <;> simp [level_after, last_write, writes_to]
  refine idle_append _ _ _ (idle_flatMap _ _ _ (fun k _ => ?_)) ?_
  · refine idle_append _ _ _ ?_ ?_
    · simp [level_after, last_write, writes_to, Ne.symm h1, Ne.symm h2]
    · split
      · exact idle_append _ _ _ hpulse rfl
      · rfl
  · split
    · simp [level_after, last_write, writes_to]
    · rfl

theorem idle_error_detect (d : Device) (sdo : Nat → Nat)
    (h1 : d.LE ≠ d.SDI) (h2 : d.LE ≠ d.CLK) (h3 : d.LE ≠ d.iOE) :
    level_after LOW d.LE (error_detect d sdo).2.trace = LOW := by
  by_cases hw : d.LE = -1 ∨ d.iOE = -1 ∨ d.SDO = -1
  · unfold error_detect
    rw [if_pos hw]
    exact idle_debug_warn _ d
  · have hLE : d.LE ≠ -1 := fun h => hw (Or.inl h)
    have hOE : d.iOE ≠ -1 := fun h => hw (Or.inr (Or.inl h))
    have hSDO : d.SDO ≠ -1 := fun h => hw (Or.inr (Or.inr h))
    rw [(error_detect_trace d sdo hLE hOE hSDO).2.2]
    have hloop : level_after LOW d.LE (readback d sdo).2 = LOW := by
      unfold readback
      rw [readback_fold_trace]
      refine idle_flatMap _ _ _ (fun _ _ => ?_)
      simp [level_after, last_write, writes_to, Ne.symm h2]
    refine idle_append _ _ _ (idle_append _ _ _ ?_ hloop) ?_
    · refine idle_append _ _ _ (idle_append _ _ _ (idle_append _ _ _ (idle_append _ _ _
        (idle_append _ _ _ (idle_append _ _ _ (idle_send _ d _ h1 h2)
          (idle_switch_mode d h2 h3 _ (by simp))) rfl)
        (idle_debug_warn _ d)) (idle_do_clk_ioe_le d h2 h3 _ (by simp)))
        (idle_debug_warn _ d)) ?_
      simp [level_after, last_write, writes_to, Ne.symm h1]
    · refine idle_append _ _ _ (idle_append _ _ _ (idle_append _ _ _ rfl ?_) rfl)
        (idle_normal_mode d h2 h3)
      split <;> rfl

theorem idle_reset (d : Device)
    (h1 : d.LE ≠ d.SDI) (h2 : d.LE ≠ d.CLK) (h3 : d.LE ≠ d.iOE) :
    level_after LOW d.LE (reset d).trace = LOW := by
  rw [reset_trace]
  refine idle_append _ _ _ (idle_append _ _ _ (idle_append _ _ _ (idle_append _ _ _
    (idle_append _ _ _ (idle_append _ _ _ ?_ ?_) ?_) ?_) (idle_all _ d LOW h1 h2)) ?_) ?_
  · split <;> rfl
  · split
    · exact idle_normal_mode d h2 h3
    · rfl
  · split
    · exact idle_off _ d h3
    · rfl
  · split <;> rfl
  · split
    · exact idle_config d h1 h2 h3 1 1 127
    · rfl
  · split
    · exact idle_on _ d h3
    · rfl

theorem idle_brightness (p : Int) (d : Device) (level : Int) :
    level_after LOW p (brightness d level).trace = LOW := by
  unfold brightness
  split
  · exact idle_debug_warn p d
  · split
    · exact idle_debug_warn p d
    · rfl

theorem flash_trace (d : Device) (on_duration bracket : Nat) (leave_on : Bool) :
    (flash d on_duration bracket leave_on).trace =
      (off d).trace ++ [Event.delay bracket]
        ++ («on» d).trace ++ [Event.delay on_duration]
        ++ (off d).trace ++ [Event.delay bracket]
        ++ (if leave_on then («on» d).trace else []) := by
  unfold flash
  have hlast : ∀ x : Device,
      ((fun d1 : Device => if leave_on then «on» d1 else skip d1) x).dev = x := by
    intro x
    beta_reduce
    split <;> simp
  rw [(run_of_keep _ d
        (keep_of_mem_cons off_dev (keep_of_mem_cons (by simp)
        (keep_of_mem_cons on_dev (keep_of_mem_cons (by simp)
        (keep_of_mem_cons off_dev (keep_of_mem_cons (by simp)
        (keep_of_mem_cons hlast keep_nil)))))))).2]
  cases leave_on <;> simp

theorem idle_flash (p : Int) (d : Device) (on_duration bracket : Nat) (leave_on : Bool)
    (h3 : p ≠ d.iOE) :
    level_after LOW p (flash d on_duration bracket leave_on).trace = LOW := by
  rw [flash_trace]
  refine idle_append _ _ _ (idle_append _ _ _ (idle_append _ _ _ (idle_append _ _ _
    (idle_append _ _ _ (idle_append _ _ _ (idle_off p d h3) rfl) (idle_on p d h3)) rfl)
    (idle_off p d h3)) rfl) ?_
  split
  · exact idle_on p d h3
  · rfl

/-- C20. On a device with LE wired on a pin of its own (different from the SDI,
CLK and iOE pins) and LE low before the call, LE is low after each public
operation: the last level the operation writes to LE is LOW, or it does not
write LE at all.  This holds for `latch_pulse`, `send`, `all`, `send_bits`,
`normal_mode`, `config`, `error_detect`, `reset`, `on`, `off`, `brightness` and
`flash`, for all their arguments, and for playing each of the five waveform
tables. -/
theorem latch_enable_idles_low (d : Device) (hLE : d.LE ≠ -1)
    (h1 : d.LE ≠ d.SDI) (h2 : d.LE ≠ d.CLK) (h3 : d.LE ≠ d.iOE) :
    last_write d.LE (latch_pulse d).trace = some LOW
    ∧ (∀ W, level_after LOW d.LE (send d W).trace = LOW)
    ∧ (∀ hilo, level_after LOW d.LE (all d hilo).trace = LOW)
    ∧ (∀ count bits delay_between,
        level_after LOW d.LE (send_bits d count bits delay_between).trace = LOW)
    ∧ level_after LOW d.LE (normal_mode d).trace = LOW
    ∧ (∀ c b g, level_after LOW d.LE (config d c b g).trace = LOW)
    ∧ (∀ sdo, level_after LOW d.LE (error_detect d sdo).2.trace = LOW)
    ∧ level_after LOW d.LE (reset d).trace = LOW
    ∧ level_after LOW d.LE («on» d).trace = LOW
    ∧ level_after LOW d.LE (off d).trace = LOW
    ∧ (∀ level, level_after LOW d.LE (brightness d level).trace = LOW)
    ∧ (∀ on_duration bracket leave_on,
        level_after LOW d.LE (flash d on_duration bracket leave_on).trace = LOW)
    ∧ (∀ T ∈ [ NORMAL_MODE_PATTERN, SWITCH_MODE_PATTERN, ERROR_DETECT_MODE_PATTERN,
               ERROR_DETECT_READY, CONFIGURATION_MODE_PATTERN ],
        level_after LOW d.LE (do_clk_ioe_le d T).trace = LOW) := by
  refine ⟨?_, fun W => idle_send _ d W h1 h2, fun hilo => idle_all _ d hilo h1 h2,
    fun count bits delay_between => idle_send_bits d count bits delay_between h1 h2,
    idle_normal_mode d h2 h3, fun c b g => idle_config d h1 h2 h3 c b g,
    fun sdo => idle_error_detect d sdo h1 h2 h3, idle_reset d h1 h2 h3,
    idle_on _ d h3, idle_off _ d h3, fun level => idle_brightness _ d level,
    fun a b l => idle_flash _ d a b l h3,
    fun T hT => idle_do_clk_ioe_le d h2 h3 T hT⟩
  rw [latch_pulse_trace d hLE]
  simp [last_write, writes_to]

/-- Witness for C20 on the five-wire device. -/
theorem latch_enable_idles_low_witness :
    last_write five_wire.LE (latch_pulse five_wire).trace = some LOW
    ∧ level_after LOW five_wire.LE (config five_wire 1 0 32).trace = LOW
    ∧ level_after LOW five_wire.LE (error_detect five_wire alternating).2.trace = LOW
    ∧ level_after LOW five_wire.LE (reset five_wire).trace = LOW
    ∧ level_after LOW five_wire.LE (flash five_wire 50 200 true).trace = LOW :=
  have h := latch_enable_idles_low five_wire (by decide) (by decide) (by decide) (by decide)
  ⟨h.1, h.2.2.2.2.2.1 1 0 32, h.2.2.2.2.2.2.1 alternating, h.2.2.2.2.2.2.2.1,
   h.2.2.2.2.2.2.2.2.2.2.2.1 50 200 true⟩

/-! ## Attachment is keyed on the chain length -/

/-- The device record left by `attach` on a device whose chain length is 0:
the arguments are stored, `debugging` is kept, and `pwm` is set when the iOE
pin is present (`> -1`) and on a timer. -/
theorem attach_dev (t : Int → Bool) (d : Device) (h : d.ct = 0)
    (n sdi clk le ioe sdo : Int) :
    (attach t d n sdi clk le ioe sdo).dev =
      { SDI := sdi, CLK := clk, LE := le, iOE := ioe, SDO := sdo, ct := n,
        debugging := d.debugging,
        pwm := d.pwm || (decide (ioe > -1) && t ioe) } := by
  unfold attach
  rw [if_neg (by simp [h])]
  simp only [run_cons_dev, run_nil, skip_dev, emit_dev]
  by_cases hd : d.debugging = true <;> by_cases hl : le > -1 <;> by_cases ho : ioe > -1 <;>
    by_cases hs : sdo > -1 <;> by_cases ht : t ioe = true <;>
    simp [hd, hl, ho, hs, ht, run_cons_dev, debug_prefix]

/-- C21. Attachment is keyed on the chain length alone.  A first `attach` with
chain length 0 on a freshly constructed device records the five pins and runs
the GPIO set-up (its trace starts with the set-up of CLK and SDI), yet leaves
the chain length 0; every further `attach` on that device then overwrites the
pin fields with its own arguments and runs the GPIO set-up again on the new
pins.  After a first `attach` with a nonzero chain length the chain length is
nonzero and every further `attach` returns the device record unchanged and
makes no pin call. -/
theorem attach_keyed_on_chain_length (t : Int → Bool) :
    (∀ sdi clk le ioe sdo : Int,
      (attach t TLC5926 0 sdi clk le ioe sdo).dev.ct = 0
      ∧ (attach t TLC5926 0 sdi clk le ioe sdo).dev.SDI = sdi
      ∧ (attach t TLC5926 0 sdi clk le ioe sdo).dev.CLK = clk
      ∧ (attach t TLC5926 0 sdi clk le ioe sdo).dev.LE = le
      ∧ (attach t TLC5926 0 sdi clk le ioe sdo).dev.iOE = ioe
      ∧ (attach t TLC5926 0 sdi clk le ioe sdo).dev.SDO = sdo
      ∧ ∃ rest, (attach t TLC5926 0 sdi clk le ioe sdo).trace =
          [ Event.pinMode clk PinMode.OUTPUT, Event.digitalWrite clk LOW,
            Event.pinMode sdi PinMode.OUTPUT ] ++ rest)
    ∧ (∀ sdi clk le ioe sdo n2 sdi2 clk2 le2 ioe2 sdo2 : Int,
      (attach t (attach t TLC5926 0 sdi clk le ioe sdo).dev n2 sdi2 clk2 le2 ioe2 sdo2).dev.SDI
          = sdi2
      ∧ (attach t (attach t TLC5926 0 sdi clk le ioe sdo).dev n2 sdi2 clk2 le2 ioe2 sdo2).dev.CLK
          = clk2
      ∧ (attach t (attach t TLC5926 0 sdi clk le ioe sdo).dev n2 sdi2 clk2 le2 ioe2 sdo2).dev.LE
          = le2
      ∧ (attach t (attach t TLC5926 0 sdi clk le ioe sdo).dev n2 sdi2 clk2 le2 ioe2 sdo2).dev.iOE
          = ioe2
      ∧ (attach t (attach t TLC5926 0 sdi clk le ioe sdo).dev n2 sdi2 clk2 le2 ioe2 sdo2).dev.SDO
          = sdo2
      ∧ (attach t (attach t TLC5926 0 sdi clk le ioe sdo).dev n2 sdi2 clk2 le2 ioe2 sdo2).dev.ct
          = n2
      ∧ ∃ rest,
          (attach t (attach t TLC5926 0 sdi clk le ioe sdo).dev n2 sdi2 clk2 le2 ioe2 sdo2).trace =
            [ Event.pinMode clk2 PinMode.OUTPUT, Event.digitalWrite clk2 LOW,
              Event.pinMode sdi2 PinMode.OUTPUT ] ++ rest)
    ∧ (∀ n sdi clk le ioe sdo : Int, n ≠ 0 →
      (attach t TLC5926 n sdi clk le ioe sdo).dev.ct = n
      ∧ ∀ n2 sdi2 clk2 le2 ioe2 sdo2 : Int,
          (attach t (attach t TLC5926 n sdi clk le ioe sdo).dev n2 sdi2 clk2 le2 ioe2 sdo2).dev
            = (attach t TLC5926 n sdi clk le ioe sdo).dev
          ∧ pin_events
              (attach t (attach t TLC5926 n sdi clk le ioe sdo).dev
                n2 sdi2 clk2 le2 ioe2 sdo2).trace = []) := by
  have hfresh : TLC5926.ct = 0 := rfl
  refine ⟨?_, ?_, ?_⟩
  · intro sdi clk le ioe sdo
    rw [attach_dev t TLC5926 hfresh]
    exact ⟨rfl, rfl, rfl, rfl, rfl, rfl, attach_trace_head t TLC5926 hfresh 0 sdi clk le ioe sdo⟩
  · intro sdi clk le ioe sdo n2 sdi2 clk2 le2 ioe2 sdo2
    have h0 : (attach t TLC5926 0 sdi clk le ioe sdo).dev.ct = 0 := by
      rw [attach_dev t TLC5926 hfresh]
    rw [attach_dev t _ h0]
    exact ⟨rfl, rfl, rfl, rfl, rfl, rfl, attach_trace_head t _ h0 n2 sdi2 clk2 le2 ioe2 sdo2⟩
  · intro n sdi clk le ioe sdo hn
    have hct : (attach t TLC5926 n sdi clk le ioe sdo).dev.ct = n := by
      rw [attach_dev t TLC5926 hfresh]
    refine ⟨hct, ?_⟩
    intro n2 sdi2 clk2 le2 ioe2 sdo2
    have hne : (attach t TLC5926 n sdi clk le ioe sdo).dev.ct ≠ 0 := by rw [hct]; exact hn
    generalize (attach t TLC5926 n sdi clk le ioe sdo).dev = d1 at hne ⊢
    unfold attach
    rw [if_pos hne]
    exact ⟨debug_warn_dev d1, pin_events_debug_warn d1⟩

/-- Witness for C21: after `attach(1, 2, 3, 4, 5, -1)` a second `attach` on
pins 8..11 changes nothing; after `attach(0, 2, 3, 4, 5, -1)` the same second
call stores the new pins and sets them up. -/
theorem attach_keyed_on_chain_length_witness :
    (attach uno_timer (attach uno_timer TLC5926 1 2 3 4 5 (-1)).dev 1 8 9 10 11 (-1)).dev
        = (attach uno_timer TLC5926 1 2 3 4 5 (-1)).dev
    ∧ pin_events
        (attach uno_timer (attach uno_timer TLC5926 1 2 3 4 5 (-1)).dev 1 8 9 10 11 (-1)).trace
        = []
    ∧ (attach uno_timer (attach uno_timer TLC5926 0 2 3 4 5 (-1)).dev 1 8 9 10 11 (-1)).dev.SDI
        = 8
    ∧ (attach uno_timer (attach uno_timer TLC5926 0 2 3 4 5 (-1)).dev 1 8 9 10 11 (-1)).trace =
        [ Event.pinMode 9 PinMode.OUTPUT, Event.digitalWrite 9 LOW,
          Event.pinMode 8 PinMode.OUTPUT,
          Event.pinMode 10 PinMode.OUTPUT, Event.digitalWrite 10 LOW,
          Event.pinMode 11 PinMode.OUTPUT, Event.digitalWrite 11 LOW ] :=
  ⟨(((attach_keyed_on_chain_length uno_timer).2.2 1 2 3 4 5 (-1) (by decide)).2
      1 8 9 10 11 (-1)).1,
   (((attach_keyed_on_chain_length uno_timer).2.2 1 2 3 4 5 (-1) (by decide)).2
      1 8 9 10 11 (-1)).2,
   ((attach_keyed_on_chain_length uno_timer).2.1 2 3 4 5 (-1) 1 8 9 10 11 (-1)).1,
   by decide⟩

/-! ## What reset leaves latched -/

theorem all_low_trace (d : Device) (n : Nat) (hct : d.ct = (n : Int)) (hLE : d.LE ≠ -1) :
    (all d LOW).trace =
      (List.replicate (16 * n)
          [ Event.digitalWrite d.SDI 0, Event.digitalWrite d.CLK HIGH,
            Event.digitalWrite d.CLK LOW ]).flatten
        ++ [Event.digitalWrite d.LE HIGH, Event.digitalWrite d.LE LOW] := by
  have hn : d.ct.toNat = n := by rw [hct]; simp
  have h0 : (if LOW ≠ 0 then (0xFFFF : Nat) else 0) = 0 := by simp [LOW]
  rw [all_trace, hn, h0, shift_zeros, flatMap_const_range, flatten_replicate_mul, if_pos hLE]

theorem send_ones_trace (d : Device) (hLE : d.LE ≠ -1) :
    (send d 0xFFFF).trace =
      (List.replicate 16
          [ Event.digitalWrite d.SDI 1, Event.digitalWrite d.CLK HIGH,
            Event.digitalWrite d.CLK LOW ]).flatten
        ++ [Event.digitalWrite d.LE HIGH, Event.digitalWrite d.LE LOW] := by
  rw [send_trace, shift_ones, flatMap_const_range, if_pos hLE]

theorem shiftOut_zero_groups (dp cp : Int) :
    shiftOut dp cp BitOrder.MSBFIRST 0 =
      (List.replicate 8
        [ Event.digitalWrite dp 0, Event.digitalWrite cp HIGH, Event.digitalWrite cp LOW ]).flatten := by
  rw [shiftOut_zero, flatMap_const_range]

theorem shiftOut_ones_groups (dp cp : Int) :
    shiftOut dp cp BitOrder.LSBFIRST 0xFF =
      (List.replicate 8
        [ Event.digitalWrite dp 1, Event.digitalWrite cp HIGH, Event.digitalWrite cp LOW ]).flatten := by
  rw [shiftOut_lsb dp cp 0xFF (by norm_num), ← flatMap_const_range]
  simp only [range8, List.flatMap_cons, List.flatMap_nil]
  simp
  decide

theorem writes_to_play_rows_none (p : Int) (d : Device) (T : List (Int × Int × Int))
    (h1 : p ≠ d.CLK) (h2 : p ≠ d.iOE) (h3 : p ≠ d.LE) :
    writes_to p (play_rows d T) = [] := by
  induction T with
  | nil => rfl
  | cons r rest ih =>
    by_cases h : r.1 = -1
    · simp [play_rows, h, writes_to]
    · have hr : play_rows d (r :: rest) =
          [ Event.digitalWrite d.CLK r.1, Event.digitalWrite d.iOE r.2.1,
            Event.digitalWrite d.LE r.2.2 ] ++ play_rows d rest := by
        simp [play_rows, h]
      rw [hr, writes_to_append, ih]
      simp [writes_to, Ne.symm h1, Ne.symm h2, Ne.symm h3]

theorem writes_to_switch_mode_none (p : Int) (d : Device) (T : List (Int × Int × Int))
    (h1 : p ≠ d.CLK) (h2 : p ≠ d.iOE) (h3 : p ≠ d.LE) :
    writes_to p (switch_mode d T).trace = [] := by
  have hclk : writes_to p [Event.digitalWrite d.CLK LOW] = [] := by
    simp [writes_to, Ne.symm h1]
  have hpwm : writes_to p (if d.pwm then [Event.pinMode d.iOE PinMode.OUTPUT] else []) = [] := by
    split <;> rfl
  rw [switch_mode_trace]
  simp only [do_clk_ioe_le, emit_trace, writes_to_append, writes_to_debug_warn,
    writes_to_play_rows_none p d _ h1 h2 h3, hclk, hpwm, List.append_nil]

theorem writes_to_on_none (p : Int) (d : Device) (hOE : d.iOE ≠ -1) (h2 : p ≠ d.iOE) :
    writes_to p («on» d).trace = [] := by
  have hpwm : writes_to p (if d.pwm then [Event.pinMode d.iOE PinMode.OUTPUT] else []) = [] := by
    split <;> rfl
  rw [on_trace d hOE]
  simp only [writes_to_append, writes_to_debug_warn, hpwm, List.append_nil]
  simp [writes_to, Ne.symm h2]

/-- C22. On a device with LE and iOE wired and chain length `n ≥ 1`, the trace
of `reset` is: the calls up to the data-out set-up; the `16 * n` data-0 clock
pulses of `all(LOW)` and its latch pulse; the sixteen data-1 clock pulses of
`send(0xFFFF)` and its latch pulse; the mode switch to Configuration; then
eight data-0 pulses, eight data-1 pulses, a latch pulse, `normal_mode()` and
`on()`.  So the last sixteen bits shifted and latched before the switch to
Configuration mode are all ones, and after that latch pulse the only data put
on SDI (when SDI is a pin of its own) are eight zeros followed by eight ones:
no all-zero 16-bit word is shifted after it.  The trace ends with iOE driven
LOW. -/
theorem reset_latches_ones_last (d : Device) (n : Nat) (hn : 1 ≤ n) (hct : d.ct = (n : Int))
    (hLE : d.LE ≠ -1) (hOE : d.iOE ≠ -1) :
    (reset d).trace =
      ((if d.pwm then [Event.pinMode d.iOE PinMode.OUTPUT] else [])
        ++ (normal_mode d).trace
        ++ (off d).trace
        ++ (if d.SDO ≠ -1 then [Event.pinMode d.SDO PinMode.INPUT] else []))
      ++ ((List.replicate (16 * n)
            [ Event.digitalWrite d.SDI 0, Event.digitalWrite d.CLK HIGH,
              Event.digitalWrite d.CLK LOW ]).flatten
          ++ [Event.digitalWrite d.LE HIGH, Event.digitalWrite d.LE LOW])
      ++ ((List.replicate 16
            [ Event.digitalWrite d.SDI 1, Event.digitalWrite d.CLK HIGH,
              Event.digitalWrite d.CLK LOW ]).flatten
          ++ [Event.digitalWrite d.LE HIGH, Event.digitalWrite d.LE LOW])
      ++ ((switch_mode d CONFIGURATION_MODE_PATTERN).trace
          ++ (List.replicate 8
                [ Event.digitalWrite d.SDI 0, Event.digitalWrite d.CLK HIGH,
                  Event.digitalWrite d.CLK LOW ]).flatten
          ++ (List.replicate 8
                [ Event.digitalWrite d.SDI 1, Event.digitalWrite d.CLK HIGH,
                  Event.digitalWrite d.CLK LOW ]).flatten
          ++ [Event.digitalWrite d.LE HIGH, Event.digitalWrite d.LE LOW]
          ++ (switch_mode d NORMAL_MODE_PATTERN).trace
          ++ («on» d).trace)
    ∧ 16 ≤ 16 * n
    ∧ (d.SDI ≠ d.CLK → d.SDI ≠ d.iOE → d.SDI ≠ d.LE →
        writes_to d.SDI
          ((switch_mode d CONFIGURATION_MODE_PATTERN).trace
            ++ (List.replicate 8
                  [ Event.digitalWrite d.SDI 0, Event.digitalWrite d.CLK HIGH,
                    Event.digitalWrite d.CLK LOW ]).flatten
            ++ (List.replicate 8
                  [ Event.digitalWrite d.SDI 1, Event.digitalWrite d.CLK HIGH,
                    Event.digitalWrite d.CLK LOW ]).flatten
            ++ [Event.digitalWrite d.LE HIGH, Event.digitalWrite d.LE LOW]
            ++ (switch_mode d NORMAL_MODE_PATTERN).trace
            ++ («on» d).trace)
          = [0, 0, 0, 0, 0, 0, 0, 0, 1, 1, 1, 1, 1, 1, 1, 1])
    ∧ (reset d).trace.getLast? = some (Event.digitalWrite d.iOE LOW) := by
  have hmain : (reset d).trace = _ := reset_trace_wired d hLE hOE
  refine ⟨?_, by omega, ?_, ?_⟩
  · rw [hmain, config_trace d 1 1 127 hLE hOE, all_low_trace d n hct hLE, send_ones_trace d hLE,
      shiftOut_zero_groups, latch_pulse_trace d hLE, normal_mode_trace d hLE hOE]
    have hv : config_value 1 1 127 = 0xFF := by decide
    rw [hv, shiftOut_ones_groups]
    simp only [List.append_assoc]
  · intro h1 h2 h3
    simp only [writes_to_append, writes_to_switch_mode_none _ d _ h1 h2 h3,
      writes_to_on_none _ d hOE h2, List.nil_append, List.append_nil]
    simp [List.replicate, writes_to, Ne.symm h1, Ne.symm h3]
  · rw [hmain, on_trace d hOE]
    simp only [← List.append_assoc]
    simp

/-- Witness for C22 on the five-wire device (one chip). -/
theorem reset_latches_ones_last_witness :
    (reset five_wire).trace.getLast? = some (Event.digitalWrite 5 LOW)
    ∧ writes_to five_wire.SDI
          ((switch_mode five_wire CONFIGURATION_MODE_PATTERN).trace
            ++ (List.replicate 8
                  [ Event.digitalWrite five_wire.SDI 0, Event.digitalWrite five_wire.CLK HIGH,
                    Event.digitalWrite five_wire.CLK LOW ]).flatten
            ++ (List.replicate 8
                  [ Event.digitalWrite five_wire.SDI 1, Event.digitalWrite five_wire.CLK HIGH,
                    Event.digitalWrite five_wire.CLK LOW ]).flatten
            ++ [Event.digitalWrite five_wire.LE HIGH, Event.digitalWrite five_wire.LE LOW]
            ++ (switch_mode five_wire NORMAL_MODE_PATTERN).trace
            ++ («on» five_wire).trace)
          = [0, 0, 0, 0, 0, 0, 0, 0, 1, 1, 1, 1, 1, 1, 1, 1] :=
  have h := reset_latches_ones_last five_wire 1 (by decide) (by decide) (by decide) (by decide)
  ⟨h.2.2.2, h.2.2.1 (by decide) (by decide) (by decide)⟩

end TLC5926
